import Mathlib

/-!
Verification of the ocr-ai document-extraction library.

Shallow embedding conventions:
* JS strings are modelled as `List Char`.
* JS numbers that the library merely forwards (model parameters such as
  `temperature` or `topP`) are modelled as `Int`; the library never computes
  with them, it only tests presence and copies them.
* JSON values (`JSON.parse` / `JSON.stringify`) are modelled by the `Json`
  inductive below with integer numerics; floating-point formatting is out of
  scope.
* Promise rejection / thrown exceptions are modelled with `Except (List Char)`;
  `try`/`catch` becomes a `match` on the `Except`.
* Filesystem and network I/O (the out-of-scope collaborators) are modelled as
  oracle records supplying the outcome of each platform call.
-/

/-- Characters written by code point to stay clear of escaping pitfalls. -/
def quoteChar : Char := Char.ofNat 34

def backslashChar : Char := Char.ofNat 92

def backtickChar : Char := Char.ofNat 96

def lbraceChar : Char := Char.ofNat 123

def rbraceChar : Char := Char.ofNat 125

def lbrackChar : Char := Char.ofNat 91

def rbrackChar : Char := Char.ofNat 93

/-- JSON insignificant whitespace (space, tab, line feed, carriage return). -/
def isJsonWs (c : Char) : Bool :=
  (c.toNat = 32) || (c.toNat = 9) || (c.toNat = 10) || (c.toNat = 13)

/-- Whitespace recognised by JavaScript `String.prototype.trim` (the subset
relevant to this code base: space, tab, LF, CR, vertical tab, form feed). -/
def isJsWsChar (c : Char) : Bool :=
  (c.toNat = 32) || (c.toNat = 9) || (c.toNat = 10) || (c.toNat = 13) ||
  (c.toNat = 11) || (c.toNat = 12)

/-- Model of `String.prototype.trim`: drop whitespace on both ends. -/
def trimList (s : List Char) : List Char :=
  (((s.dropWhile isJsWsChar).reverse.dropWhile isJsWsChar)).reverse

/-- Model of `String.prototype.startsWith`. -/
def startsWithL (pre s : List Char) : Bool := pre.isPrefixOf s

/-- Model of `String.prototype.endsWith`. -/
def endsWithL (suf s : List Char) : Bool := suf.reverse.isPrefixOf s.reverse

/-- Decimal digit printing helper (digits of `n` prepended to `acc`). -/
def printNatCore (n : Nat) (acc : List Char) : List Char :=
  let acc1 := Nat.digitChar (n % 10) :: acc
  if h : n < 10 then acc1 else printNatCore (n / 10) acc1
termination_by n
decreasing_by exact Nat.div_lt_self (by omega) (by omega)

/-- Decimal printing of a natural number, as JS number-to-string on naturals. -/
def printNat (n : Nat) : List Char := printNatCore n []

/-- Decimal printing of an integer, as `JSON.stringify` on integral numbers. -/
def printInt (i : Int) : List Char :=
  if i < 0 then '-' :: printNat i.natAbs else printNat i.toNat

/-- JSON values (numbers restricted to integers, see header). -/
inductive Json where
  | null : Json
  | bool (b : Bool) : Json
  | num (n : Int) : Json
  | str (s : List Char) : Json
  | arr (elems : List Json) : Json
  | obj (fields : List (List Char × Json)) : Json

/-- Lower-case hexadecimal digit, as emitted by `JSON.stringify` escapes. -/
def hexDigitChar (n : Nat) : Char :=
  if n < 10 then Char.ofNat (48 + n) else Char.ofNat (87 + n)

/-- Escaping of one character inside a JSON string literal, following
`JSON.stringify`: quote, backslash and named control escapes, `\u00xx` for
other control characters, everything else verbatim. -/
def escapeChar (c : Char) : List Char :=
  if c = quoteChar then [backslashChar, quoteChar]
  else if c = backslashChar then [backslashChar, backslashChar]
  else if c.toNat = 8 then [backslashChar, 'b']
  else if c.toNat = 9 then [backslashChar, 't']
  else if c.toNat = 10 then [backslashChar, 'n']
  else if c.toNat = 12 then [backslashChar, 'f']
  else if c.toNat = 13 then [backslashChar, 'r']
  else if c.toNat < 32 then
    [backslashChar, 'u', '0', '0', hexDigitChar (c.toNat / 16), hexDigitChar (c.toNat % 16)]
  else [c]

/-- Escape every character of a string body. -/
def escapeList (s : List Char) : List Char :=
  s.foldr (fun c acc => escapeChar c ++ acc) []

/-- Serialization of a JSON string literal. -/
def serializeString (s : List Char) : List Char :=
  quoteChar :: escapeList s ++ [quoteChar]

mutual

/-- Model of compact `JSON.stringify`. -/
def serialize : Json → List Char
  | .null => "null".toList
  | .bool b => if b then "true".toList else "false".toList
  | .num i => printInt i
  | .str s => serializeString s
  | .arr xs => lbrackChar :: serializeElems xs ++ [rbrackChar]
  | .obj fs => lbraceChar :: serializeFields fs ++ [rbraceChar]

/-- Comma-separated serialization of array elements. -/
def serializeElems : List Json → List Char
  | [] => []
  | [x] => serialize x
  | x :: y :: xs => serialize x ++ ',' :: serializeElems (y :: xs)

/-- Comma-separated serialization of object members. -/
def serializeFields : List (List Char × Json) → List Char
  | [] => []
  | [(k, v)] => serializeString k ++ ':' :: serialize v
  | (k, v) :: f :: fs => serializeString k ++ ':' :: serialize v ++ ',' :: serializeFields (f :: fs)

end

/-- Value of a hexadecimal digit character, used by the `\uXXXX` escape. -/
def hexVal (c : Char) : Option Nat :=
  if 48 ≤ c.toNat ∧ c.toNat ≤ 57 then some (c.toNat - 48)
  else if 97 ≤ c.toNat ∧ c.toNat ≤ 102 then some (c.toNat - 87)
  else if 65 ≤ c.toNat ∧ c.toNat ≤ 70 then some (c.toNat - 55)
  else none

/-- Single-character JSON escapes accepted by `JSON.parse`. -/
def unescapeNamed (c : Char) : Option Char :=
  if c = quoteChar then some quoteChar
  else if c = backslashChar then some backslashChar
  else if c = '/' then some '/'
  else if c = 'b' then some (Char.ofNat 8)
  else if c = 'f' then some (Char.ofNat 12)
  else if c = 'n' then some (Char.ofNat 10)
  else if c = 'r' then some (Char.ofNat 13)
  else if c = 't' then some (Char.ofNat 9)
  else none

/-- Skip JSON insignificant whitespace. -/
def skipWs (s : List Char) : List Char := s.dropWhile isJsonWs

/-- Parse the body of a JSON string literal (after the opening quote), up to
and including the closing quote; returns the decoded body and the rest. -/
def parseStringBody : List Char → Option (List Char × List Char)
  | [] => none
  | c :: rest =>
    if c = quoteChar then some ([], rest)
    else if c = backslashChar then
      match rest with
      | [] => none
      | e :: rest2 =>
        if e = 'u' then
          match rest2 with
          | h1 :: h2 :: h3 :: h4 :: rest3 =>
            match hexVal h1, hexVal h2, hexVal h3, hexVal h4 with
            | some a, some b, some c2, some d =>
              match parseStringBody rest3 with
              | some (s, r) => some (Char.ofNat (((a * 16 + b) * 16 + c2) * 16 + d) :: s, r)
              | none => none
            | _, _, _, _ => none
          | _ => none
        else
          match unescapeNamed e with
          | some u =>
            match parseStringBody rest2 with
            | some (s, r) => some (u :: s, r)
            | none => none
          | none => none
    else if c.toNat < 32 then none
    else
      match parseStringBody rest with
      | some (s, r) => some (c :: s, r)
      | none => none

/-- Value of the decimal digits of a number token. -/
def digitsToNat (ds : List Char) : Nat :=
  ds.foldl (fun a c => a * 10 + (c.toNat - 48)) 0

/-- Parse an (integral) JSON number token. -/
def parseNumber (s : List Char) : Option (Int × List Char) :=
  match s with
  | [] => none
  | c :: rest =>
    if c = '-' then
      match rest.takeWhile Char.isDigit with
      | [] => none
      | _ :: _ => some (-(digitsToNat (rest.takeWhile Char.isDigit) : Int),
                        rest.dropWhile Char.isDigit)
    else
      match (c :: rest).takeWhile Char.isDigit with
      | [] => none
      | _ :: _ => some ((digitsToNat ((c :: rest).takeWhile Char.isDigit) : Nat),
                        (c :: rest).dropWhile Char.isDigit)

mutual

/-- Fuel-indexed model of `JSON.parse` on one value; returns the value and
the unconsumed rest of the input. -/
def parseValue : Nat → List Char → Option (Json × List Char)
  | 0, _ => none
  | Nat.succ fuel, s =>
    match s with
    | [] => none
    | c :: rest =>
      if c = 'n' then
        match rest with
        | 'u' :: 'l' :: 'l' :: r => some (.null, r)
        | _ => none
      else if c = 't' then
        match rest with
        | 'r' :: 'u' :: 'e' :: r => some (.bool true, r)
        | _ => none
      else if c = 'f' then
        match rest with
        | 'a' :: 'l' :: 's' :: 'e' :: r => some (.bool false, r)
        | _ => none
      else if c = quoteChar then
        match parseStringBody rest with
        | some (b, r) => some (.str b, r)
        | none => none
      else if c = lbrackChar then
        match skipWs rest with
        | [] => none
        | c2 :: r2 =>
          if c2 = rbrackChar then some (.arr [], r2)
          else
            match parseElems fuel (c2 :: r2) with
            | some (xs, r3) => some (.arr xs, r3)
            | none => none
      else if c = lbraceChar then
        match skipWs rest with
        | [] => none
        | c2 :: r2 =>
          if c2 = rbraceChar then some (.obj [], r2)
          else
            match parseFields fuel (c2 :: r2) with
            | some (fs, r3) => some (.obj fs, r3)
            | none => none
      else
        match parseNumber (c :: rest) with
        | some (i, r) => some (.num i, r)
        | none => none

/-- Parse the elements of a non-empty array, consuming the closing bracket. -/
def parseElems : Nat → List Char → Option (List Json × List Char)
  | 0, _ => none
  | Nat.succ fuel, s =>
    match parseValue fuel (skipWs s) with
    | none => none
    | some (v, r) =>
      match skipWs r with
      | [] => none
      | c :: r2 =>
        if c = ',' then
          match parseElems fuel r2 with
          | some (xs, r3) => some (v :: xs, r3)
          | none => none
        else if c = rbrackChar then some ([v], r2)
        else none

/-- Parse the members of a non-empty object, consuming the closing brace. -/
def parseFields : Nat → List Char → Option (List (List Char × Json) × List Char)
  | 0, _ => none
  | Nat.succ fuel, s =>
    match skipWs s with
    | [] => none
    | c :: r =>
      if c = quoteChar then
        match parseStringBody r with
        | none => none
        | some (k, r1) =>
          match skipWs r1 with
          | [] => none
          | c2 :: r2 =>
            if c2 = ':' then
              match parseValue fuel (skipWs r2) with
              | none => none
              | some (v, r3) =>
                match skipWs r3 with
                | [] => none
                | c3 :: r4 =>
                  if c3 = ',' then
                    match parseFields fuel r4 with
                    | some (fs, r5) => some ((k, v) :: fs, r5)
                    | none => none
                  else if c3 = rbraceChar then some ([(k, v)], r4)
                  else none
            else none
      else none

end

/-- Model of `JSON.parse`: parse one value surrounded by whitespace only. -/
def jsonParse (s : List Char) : Option Json :=
  match parseValue (s.length + 1) (skipWs s) with
  | some (v, r) => if skipWs r = [] then some v else none
  | none => none

/-- The 3-backtick fence. -/
def fence3 : List Char := [backtickChar, backtickChar, backtickChar]

/-- The `json`-tagged opening fence. -/
def fenceJson : List Char := fence3 ++ ['j', 's', 'o', 'n']

/-- Fence-stripping and trimming stage of `BaseProvider.parseJsonResponse`:
trim, drop one leading ```` ```json ```` (7 chars) or ```` ``` ```` (3 chars)
fence, drop one trailing 3-backtick fence, trim again. -/
def stripFences (response : List Char) : List Char :=
  let cleaned := trimList response
  let cleaned1 :=
    if startsWithL fenceJson cleaned then cleaned.drop 7
    else if startsWithL fence3 cleaned then cleaned.drop 3
    else cleaned
  let cleaned2 :=
    if endsWithL fence3 cleaned1 then cleaned1.take (cleaned1.length - 3)
    else cleaned1
  trimList cleaned2

namespace BaseProvider

/-- Model of `BaseProvider.parseJsonResponse`: strip fences and trim, then
`JSON.parse`; on parse failure throw an error carrying a 200-character
preview of the original response. -/
def parseJsonResponse (response : List Char) : Except (List Char) Json :=
  match jsonParse (stripFences response) with
  | some v => Except.ok v
  | none =>
    Except.error ( "Failed to parse JSON response: ".toList ++ response.take 200 ++ "...".toList)

end BaseProvider

/-- The five provider identities (`AIProvider` in `types/index.ts`). -/
inductive AIProvider where
  | gemini | openai | claude | grok | vertex
deriving DecidableEq

/-- Output format for extraction. -/
inductive OutputFormat where
  | text | json
deriving DecidableEq

/-- Supported file type categories. -/
inductive SupportedFileType where
  | pdf | image | text
deriving DecidableEq

/-- Vertex AI specific configuration. -/
structure VertexConfig where
  project : List Char
  location : List Char

/-- Main configuration for `OcrAI`. -/
structure OcrConfig where
  provider : AIProvider
  apiKey : Option (List Char)
  model : Option (List Char)
  vertexConfig : Option VertexConfig

/-- Model-specific configuration parameters. Numeric values are forwarded
uninterpreted, so they are modelled as `Int`. -/
structure ModelConfig where
  temperature : Option Int
  maxTokens : Option Int
  topP : Option Int
  topK : Option Int
  stopSequences : Option (List (List Char))

/-- Options for extraction. The `schema` is an arbitrary JSON-ish object. -/
structure ExtractionOptions where
  format : Option OutputFormat
  schema : Option Json
  prompt : Option (List Char)
  language : Option (List Char)
  outputPath : Option (List Char)
  modelConfig : Option ModelConfig

/-- Token usage information. -/
structure TokenUsage where
  inputTokens : Nat
  outputTokens : Nat
  totalTokens : Nat

/-- Result from a provider extraction, including token usage. -/
structure ProviderResult (α : Type) where
  content : α
  tokens : Option TokenUsage

/-- File information after loading (`FileInfo` in `types/index.ts`).
`content` is the raw byte buffer. -/
structure FileInfo where
  path : List Char
  name : List Char
  type : SupportedFileType
  mimeType : List Char
  size : Nat
  content : List Nat
  base64 : Option (List Char)

/-- Metadata about one extraction. -/
structure ExtractionMetadata where
  provider : AIProvider
  model : List Char
  fileType : SupportedFileType
  fileName : List Char
  processingTimeMs : Nat
  tokens : Option TokenUsage

/-- The tagged extraction result union: `TextExtractionResult`,
`JsonExtractionResult` or `ExtractionError`. -/
inductive ExtractionResult where
  | textSuccess (content : List Char) (metadata : ExtractionMetadata)
  | jsonSuccess (data : Json) (metadata : ExtractionMetadata)
  | failure (error : List Char) (code : List Char)

/-- Association-list lookup, modelling JS object property access on the
string-keyed record literals of the source. -/
def alookup {α β : Type} [DecidableEq α] : List (α × β) → α → Option β
  | [], _ => none
  | (k, v) :: rest, key => if key = k then some v else alookup rest key

/-- Association-list update, modelling JS object property assignment
(overwrites in place, otherwise appends). -/
def objSet {α β : Type} [DecidableEq α] : List (α × β) → α → β → List (α × β)
  | [], key, val => [(key, val)]
  | (k, v) :: rest, key, val =>
    if k = key then (k, val) :: rest else (k, v) :: objSet rest key val

/-- A value stored in a request-options object. -/
inductive ParamValue where
  | num (i : Int)
  | strList (ss : List (List Char))
deriving DecidableEq

def keyTemperature : List Char := "temperature".toList

def keyMaxOutputTokens : List Char := "maxOutputTokens".toList

def keyTopP : List Char := "topP".toList

def keyTopK : List Char := "topK".toList

def keyStopSequences : List Char := "stopSequences".toList

def keyResponseMimeType : List Char := "responseMimeType".toList

def keyMaxTokens : List Char := "max_tokens".toList

def keyMaxCompletionTokens : List Char := "max_completion_tokens".toList

def keyTopPSnake : List Char := "top_p".toList

def keyStop : List Char := "stop".toList

namespace GeminiProvider

/-- `GeminiProvider.buildGenerationConfig`: start from `defaults`, then copy
each explicitly-set caller field (in source order). -/
def buildGenerationConfig (modelConfig : Option ModelConfig)
    (defaults : List (List Char × ParamValue)) : List (List Char × ParamValue) :=
  let config := defaults
  let config := match modelConfig.bind ModelConfig.temperature with
    | some v => objSet config keyTemperature (.num v)
    | none => config
  let config := match modelConfig.bind ModelConfig.maxTokens with
    | some v => objSet config keyMaxOutputTokens (.num v)
    | none => config
  let config := match modelConfig.bind ModelConfig.topP with
    | some v => objSet config keyTopP (.num v)
    | none => config
  let config := match modelConfig.bind ModelConfig.topK with
    | some v => objSet config keyTopK (.num v)
    | none => config
  let config := match modelConfig.bind ModelConfig.stopSequences with
    | some v => objSet config keyStopSequences (.strList v)
    | none => config
  config

end GeminiProvider

namespace VertexProvider

/-- `VertexProvider.buildGenerationConfig` (identical decision logic). -/
def buildGenerationConfig (modelConfig : Option ModelConfig)
    (defaults : List (List Char × ParamValue)) : List (List Char × ParamValue) :=
  let config := defaults
  let config := match modelConfig.bind ModelConfig.temperature with
    | some v => objSet config keyTemperature (.num v)
    | none => config
  let config := match modelConfig.bind ModelConfig.maxTokens with
    | some v => objSet config keyMaxOutputTokens (.num v)
    | none => config
  let config := match modelConfig.bind ModelConfig.topP with
    | some v => objSet config keyTopP (.num v)
    | none => config
  let config := match modelConfig.bind ModelConfig.topK with
    | some v => objSet config keyTopK (.num v)
    | none => config
  let config := match modelConfig.bind ModelConfig.stopSequences with
    | some v => objSet config keyStopSequences (.strList v)
    | none => config
  config

end VertexProvider

namespace OpenAIProvider

def gpt5Pre : List Char := "gpt-5".toList

def o1Pre : List Char := "o1".toList

def o3Pre : List Char := "o3".toList

/-- The prefix test selecting `max_completion_tokens` over `max_tokens`. -/
def usesMaxCompletionTokens (model : List Char) : Bool :=
  startsWithL gpt5Pre model || startsWithL o1Pre model || startsWithL o3Pre model

/-- `OpenAIProvider.buildCompletionOptions`: the token-limit parameter is
always present (default 16384); its name depends on the model prefix; other
fields are copied only when set. -/
def buildCompletionOptions (model : List Char) (modelConfig : Option ModelConfig) :
    List (List Char × ParamValue) :=
  let tokenParam := if usesMaxCompletionTokens model then keyMaxCompletionTokens else keyMaxTokens
  let options : List (List Char × ParamValue) :=
    objSet [] tokenParam (.num ((modelConfig.bind ModelConfig.maxTokens).getD 16384))
  let options := match modelConfig.bind ModelConfig.temperature with
    | some v => objSet options keyTemperature (.num v)
    | none => options
  let options := match modelConfig.bind ModelConfig.topP with
    | some v => objSet options keyTopPSnake (.num v)
    | none => options
  let options := match modelConfig.bind ModelConfig.stopSequences with
    | some v => objSet options keyStop (.strList v)
    | none => options
  options

end OpenAIProvider

namespace GrokProvider

/-- `GrokProvider.buildCompletionOptions`: starts from `max_tokens: 16384`,
then copies explicitly-set caller fields; the parameter name never varies. -/
def buildCompletionOptions (modelConfig : Option ModelConfig) :
    List (List Char × ParamValue) :=
  let options : List (List Char × ParamValue) := [(keyMaxTokens, .num 16384)]
  let options := match modelConfig.bind ModelConfig.temperature with
    | some v => objSet options keyTemperature (.num v)
    | none => options
  let options := match modelConfig.bind ModelConfig.maxTokens with
    | some v => objSet options keyMaxTokens (.num v)
    | none => options
  let options := match modelConfig.bind ModelConfig.topP with
    | some v => objSet options keyTopPSnake (.num v)
    | none => options
  let options := match modelConfig.bind ModelConfig.stopSequences with
    | some v => objSet options keyStop (.strList v)
    | none => options
  options

end GrokProvider

namespace ClaudeProvider

/-- The typed options object built by `ClaudeProvider.buildMessageOptions`. -/
structure MessageOptions where
  max_tokens : Int
  temperature : Option Int
  top_p : Option Int
  top_k : Option Int
  stop_sequences : Option (List (List Char))

/-- `ClaudeProvider.buildMessageOptions`: `max_tokens` always present
(default 16384), other fields only when set. -/
def buildMessageOptions (modelConfig : Option ModelConfig) : MessageOptions :=
  let options : MessageOptions :=
    { max_tokens := 16384, temperature := none, top_p := none, top_k := none,
      stop_sequences := none }
  let options := match modelConfig.bind ModelConfig.temperature with
    | some v => { options with temperature := some v }
    | none => options
  let options := match modelConfig.bind ModelConfig.maxTokens with
    | some v => { options with max_tokens := v }
    | none => options
  let options := match modelConfig.bind ModelConfig.topP with
    | some v => { options with top_p := some v }
    | none => options
  let options := match modelConfig.bind ModelConfig.topK with
    | some v => { options with top_k := some v }
    | none => options
  let options := match modelConfig.bind ModelConfig.stopSequences with
    | some v => { options with stop_sequences := some v }
    | none => options
  options

end ClaudeProvider

/-- `BaseProvider.supportsFileType`: membership in `['pdf', 'image', 'text']`. -/
def BaseProvider.supportsFileType (t : SupportedFileType) : Bool :=
  [SupportedFileType.pdf, SupportedFileType.image, SupportedFileType.text].contains t

/-- `ClaudeProvider.supportsFileType` (overridden with the identical list). -/
def ClaudeProvider.supportsFileType (t : SupportedFileType) : Bool :=
  [SupportedFileType.pdf, SupportedFileType.image, SupportedFileType.text].contains t

/-- The backend-invoking behavior of one adapter. The network calls are
out-of-scope collaborators, so the overall outcome of each adapter method
(result or raised exception) is an oracle. -/
structure ProviderBehavior where
  extractTextB : FileInfo → Option ExtractionOptions → Except (List Char) (ProviderResult (List Char))
  extractJsonB : FileInfo → Json → Option ExtractionOptions → Except (List Char) (ProviderResult Json)

/-- One instantiated provider adapter (`IAIProvider`). -/
structure Provider where
  name : AIProvider
  model : List Char
  supportsFileType : SupportedFileType → Bool
  behavior : ProviderBehavior

def defaultGeminiModel : List Char := "gemini-1.5-flash".toList

def defaultOpenAIModel : List Char := "gpt-4o".toList

def defaultClaudeModel : List Char := "claude-sonnet-4-20250514".toList

def defaultGrokModel : List Char := "grok-2-vision-1212".toList

def defaultVertexModel : List Char := "gemini-2.0-flash".toList

/-- `this.model = model || DEFAULT_MODEL` (JS `||`: an empty string also
falls back to the default). -/
def modelOrDefault (model : Option (List Char)) (dflt : List Char) : List Char :=
  match model with
  | some m => if m = [] then dflt else m
  | none => dflt

def msgApiKeyGemini : List Char := "API key is required for Gemini provider".toList

def msgApiKeyOpenAI : List Char := "API key is required for OpenAI provider".toList

def msgApiKeyClaude : List Char := "API key is required for Claude provider".toList

def msgApiKeyGrok : List Char := "API key is required for Grok provider".toList

def msgVertexConfig : List Char := "vertexConfig is required for Vertex AI provider".toList

/-- `BaseProvider`'s constructor message. -/
def msgBaseApiKey (ctorName : List Char) : List Char :=
  "API key is required for ".toList ++ ctorName

/-- The `BaseProvider` constructor: throws when the key is absent or blank. -/
def baseProviderCtor (ctorName apiKey : List Char) : Except (List Char) Unit :=
  if apiKey = [] ∨ trimList apiKey = [] then Except.error (msgBaseApiKey ctorName)
  else Except.ok ()

namespace OcrAI

/-- `OcrAI.createProvider`: validate credentials and build the adapter.
The remote backends behind each adapter are supplied by the `net` oracle. -/
def createProvider (config : OcrConfig) (net : AIProvider → ProviderBehavior) :
    Except (List Char) Provider :=
  match config.provider with
  | .gemini =>
    match config.apiKey with
    | none => Except.error msgApiKeyGemini
    | some k =>
      if k = [] then Except.error msgApiKeyGemini
      else
        match baseProviderCtor ( "GeminiProvider".toList) k with
        | .error e => Except.error e
        | .ok _ => Except.ok
            { name := .gemini, model := modelOrDefault config.model defaultGeminiModel,
              supportsFileType := BaseProvider.supportsFileType, behavior := net .gemini }
  | .openai =>
    match config.apiKey with
    | none => Except.error msgApiKeyOpenAI
    | some k =>
      if k = [] then Except.error msgApiKeyOpenAI
      else
        match baseProviderCtor ( "OpenAIProvider".toList) k with
        | .error e => Except.error e
        | .ok _ => Except.ok
            { name := .openai, model := modelOrDefault config.model defaultOpenAIModel,
              supportsFileType := BaseProvider.supportsFileType, behavior := net .openai }
  | .claude =>
    match config.apiKey with
    | none => Except.error msgApiKeyClaude
    | some k =>
      if k = [] then Except.error msgApiKeyClaude
      else
        match baseProviderCtor ( "ClaudeProvider".toList) k with
        | .error e => Except.error e
        | .ok _ => Except.ok
            { name := .claude, model := modelOrDefault config.model defaultClaudeModel,
              supportsFileType := ClaudeProvider.supportsFileType, behavior := net .claude }
  | .grok =>
    match config.apiKey with
    | none => Except.error msgApiKeyGrok
    | some k =>
      if k = [] then Except.error msgApiKeyGrok
      else
        match baseProviderCtor ( "GrokProvider".toList) k with
        | .error e => Except.error e
        | .ok _ => Except.ok
            { name := .grok, model := modelOrDefault config.model defaultGrokModel,
              supportsFileType := BaseProvider.supportsFileType, behavior := net .grok }
  | .vertex =>
    match config.vertexConfig with
    | none => Except.error msgVertexConfig
    | some _ =>
      match baseProviderCtor ( "VertexProvider".toList) ( "vertex".toList) with
      | .error e => Except.error e
      | .ok _ => Except.ok
          { name := .vertex, model := modelOrDefault config.model defaultVertexModel,
            supportsFileType := BaseProvider.supportsFileType, behavior := net .vertex }

end OcrAI

/-- The orchestrator's state: the active adapter plus its configuration. -/
structure OcrAI where
  provider : Provider
  config : OcrConfig

/-- The `OcrAI` constructor (fails loudly on bad credentials). -/
def mkOcrAI (config : OcrConfig) (net : AIProvider → ProviderBehavior) :
    Except (List Char) OcrAI :=
  match OcrAI.createProvider config net with
  | .error e => Except.error e
  | .ok p => Except.ok { provider := p, config := config }

namespace OcrAI

/-- `OcrAI.getProvider`. -/
def getProvider (o : OcrAI) : AIProvider := o.provider.name

/-- `OcrAI.getModel`. -/
def getModel (o : OcrAI) : List Char := o.provider.model

/-- `OcrAI.setProvider`: rebuild the adapter from a fresh configuration
(the previous adapter in `o` is discarded). -/
def setProvider (_o : OcrAI) (provider : AIProvider) (apiKey : List Char)
    (model : Option (List Char)) (net : AIProvider → ProviderBehavior) :
    Except (List Char) OcrAI :=
  let config : OcrConfig :=
    { provider := provider, apiKey := some apiKey, model := model, vertexConfig := none }
  match createProvider config net with
  | .error e => Except.error e
  | .ok p => Except.ok { provider := p, config := config }

end OcrAI


/-- MIME type to file type mapping (`MIME_TO_FILE_TYPE`). -/
def MIME_TO_FILE_TYPE : List (List Char × SupportedFileType) :=
  [( "application/pdf".toList, .pdf),
   ( "image/jpeg".toList, .image),
   ( "image/png".toList, .image),
   ( "image/gif".toList, .image),
   ( "image/webp".toList, .image),
   ( "image/bmp".toList, .image),
   ( "image/tiff".toList, .image),
   ( "text/plain".toList, .text),
   ( "text/markdown".toList, .text),
   ( "text/csv".toList, .text),
   ( "application/json".toList, .text),
   ( "application/xml".toList, .text),
   ( "text/html".toList, .text)]

/-- Extension to MIME type mapping (`MIME_TYPES`), in insertion order. -/
def MIME_TYPES : List (List Char × List Char) :=
  [( ".pdf".toList, "application/pdf".toList),
   ( ".jpg".toList, "image/jpeg".toList),
   ( ".jpeg".toList, "image/jpeg".toList),
   ( ".png".toList, "image/png".toList),
   ( ".gif".toList, "image/gif".toList),
   ( ".webp".toList, "image/webp".toList),
   ( ".bmp".toList, "image/bmp".toList),
   ( ".tiff".toList, "image/tiff".toList),
   ( ".tif".toList, "image/tiff".toList),
   ( ".txt".toList, "text/plain".toList),
   ( ".md".toList, "text/markdown".toList),
   ( ".csv".toList, "text/csv".toList),
   ( ".json".toList, "application/json".toList),
   ( ".xml".toList, "application/xml".toList),
   ( ".html".toList, "text/html".toList),
   ( ".htm".toList, "text/html".toList)]

/-- Extension to file type category mapping (`FILE_TYPE_CATEGORIES`). -/
def FILE_TYPE_CATEGORIES : List (List Char × SupportedFileType) :=
  [( ".pdf".toList, .pdf),
   ( ".jpg".toList, .image),
   ( ".jpeg".toList, .image),
   ( ".png".toList, .image),
   ( ".gif".toList, .image),
   ( ".webp".toList, .image),
   ( ".bmp".toList, .image),
   ( ".tiff".toList, .image),
   ( ".tif".toList, .image),
   ( ".txt".toList, .text),
   ( ".md".toList, .text),
   ( ".csv".toList, .text),
   ( ".json".toList, .text),
   ( ".xml".toList, .text),
   ( ".html".toList, .text),
   ( ".htm".toList, .text)]

/-- Join strings with a comma-and-space separator (JS `Array.join(', ')`). -/
def joinCommaSpace : List (List Char) → List Char
  | [] => []
  | [x] => x
  | x :: y :: rest => x ++ ',' :: ' ' :: joinCommaSpace (y :: rest)

/-- Model of posix `path.basename`: the part after the last slash. -/
def basename (p : List Char) : List Char :=
  (p.reverse.takeWhile (fun c => c ≠ '/')).reverse

/-- Model of `path.extname`: from the last dot of the basename to the end,
empty if there is no dot or the dot is the leading character. -/
def extname (p : List Char) : List Char :=
  let base := basename p
  if base.contains '.' then
    let after := (base.reverse.takeWhile (fun c => c ≠ '.')).reverse
    let dotIdx := base.length - after.length - 1
    if dotIdx = 0 then [] else base.drop dotIdx
  else []

/-- Lower-casing of a string (`String.prototype.toLowerCase`, ASCII part). -/
def toLowerList (s : List Char) : List Char := s.map Char.toLower

def b64Alphabet : List Char :=
  "ABCDEFGHIJKLMNOPQRSTUVWXYZabcdefghijklmnopqrstuvwxyz0123456789+/".toList

/-- Base64 digit for a 6-bit value. -/
def b64CharAt (n : Nat) : Char := b64Alphabet.getD n 'A'

/-- Model of `Buffer.toString('base64')`. -/
def base64Encode : List Nat → List Char
  | [] => []
  | [a] => [b64CharAt (a / 4), b64CharAt ((a % 4) * 16), '=', '=']
  | [a, b] => [b64CharAt (a / 4), b64CharAt ((a % 4) * 16 + b / 16), b64CharAt ((b % 16) * 4), '=']
  | a :: b :: c :: rest =>
    [b64CharAt (a / 4), b64CharAt ((a % 4) * 16 + b / 16),
     b64CharAt ((b % 16) * 4 + c / 64), b64CharAt (c % 64)] ++ base64Encode rest

/-- Value of a base64 digit. -/
def b64Val (c : Char) : Option Nat :=
  let i := b64Alphabet.findIdx (fun a => a = c)
  if i < 64 then some i else none

/-- Decode groups of four 6-bit values into bytes. -/
def base64DecodeCore : List Nat → List Nat
  | a :: b :: c :: d :: rest =>
    (a * 4 + b / 16) :: ((b % 16) * 16 + c / 4) :: ((c % 4) * 64 + d) :: base64DecodeCore rest
  | [a, b, c] => [a * 4 + b / 16, (b % 16) * 16 + c / 4]
  | [a, b] => [a * 4 + b / 16]
  | _ => []

/-- Model of `Buffer.from(s, 'base64')`: ignore non-alphabet characters
(including padding), then decode. -/
def base64Decode (s : List Char) : List Nat :=
  base64DecodeCore (s.filterMap b64Val)

/-- Split a string on every occurrence of a separator character
(JS `String.prototype.split`). -/
def splitOnChar (sep : Char) : List Char → List (List Char)
  | [] => [[]]
  | c :: rest =>
    let r := splitOnChar sep rest
    if c = sep then [] :: r
    else
      match r with
      | h :: t => (c :: h) :: t
      | [] => [[c]]

def msgFileNotFound : List Char := "File not found: ".toList

def msgNotAFile : List Char := "Path is not a file: ".toList

/-- The loader's unsupported-extension exception message. -/
def unsupportedTypeMsg (ext : List Char) : List Char :=
  "Unsupported file type: ".toList ++ ext ++ ". Supported types: ".toList ++
    joinCommaSpace (MIME_TYPES.map Prod.fst)

/-- Outcomes of the filesystem calls made by `loadFile` for one path:
the resolved absolute path, whether `fs.access`/`fs.stat` succeed, and the
result of `fs.readFile`. -/
structure FsOracle where
  resolved : List Char
  accessOk : Bool
  isFile : Bool
  size : Nat
  readResult : Except (List Char) (List Nat)

/-- Model of `loadFile`: existence and kind checks, extension-driven type
detection, read, and base64 pre-encoding for non-text files. -/
def loadFile (fs : FsOracle) (_filePath : List Char) : Except (List Char) FileInfo :=
  let absolutePath := fs.resolved
  if fs.accessOk = false then Except.error (msgFileNotFound ++ absolutePath)
  else if fs.isFile = false then Except.error (msgNotAFile ++ absolutePath)
  else
    let ext := toLowerList (extname absolutePath)
    let fileName := basename absolutePath
    match alookup MIME_TYPES ext, alookup FILE_TYPE_CATEGORIES ext with
    | some mimeType, some fileType =>
      match fs.readResult with
      | .error e => Except.error e
      | .ok content =>
        Except.ok
          { path := absolutePath, name := fileName, type := fileType, mimeType := mimeType,
            size := fs.size, content := content,
            base64 := if fileType = .text then none else some (base64Encode content) }
    | _, _ => Except.error (unsupportedTypeMsg ext)

/-- `mimeType || MIME_TYPES[ext]` (JS `||`: empty string falls through). -/
def detectMime (mimeType : Option (List Char)) (ext : List Char) : Option (List Char) :=
  match mimeType with
  | some m => if m = [] then alookup MIME_TYPES ext else some m
  | none => alookup MIME_TYPES ext

/-- Model of `loadFileFromBuffer`. -/
def loadFileFromBuffer (buffer : List Nat) (fileName : List Char)
    (mimeType : Option (List Char)) : Except (List Char) FileInfo :=
  let ext := toLowerList (extname fileName)
  let detectedMimeType := detectMime mimeType ext
  let fileType := alookup FILE_TYPE_CATEGORIES ext
  match detectedMimeType, fileType with
  | some mt, some ft =>
    Except.ok
      { path := [], name := fileName, type := ft, mimeType := mt, size := buffer.length,
        content := buffer,
        base64 := if ft = .text then none else some (base64Encode buffer) }
  | _, _ => Except.error (unsupportedTypeMsg ext)

/-- Model of `loadFileFromBase64`: take the segment after the first comma of
a data URL if present, decode, then detect type from the file name. -/
def loadFileFromBase64 (base64 : List Char) (fileName : List Char)
    (mimeType : Option (List Char)) : Except (List Char) FileInfo :=
  let base64Data := if base64.contains ',' then (splitOnChar ',' base64).getD 1 [] else base64
  let buffer := base64Decode base64Data
  let ext := toLowerList (extname fileName)
  let detectedMimeType := detectMime mimeType ext
  let fileType := alookup FILE_TYPE_CATEGORIES ext
  match detectedMimeType, fileType with
  | some mt, some ft =>
    Except.ok
      { path := [], name := fileName, type := ft, mimeType := mt, size := buffer.length,
        content := buffer, base64 := some base64Data }
  | _, _ => Except.error (unsupportedTypeMsg ext)

/-- Outcomes of the network fetch made by `loadFileFromUrl`. `fileName` is
the name computed from the Content-Disposition header or the URL path with
the `'download'` fallback; that computation is platform string machinery
(regex and URL parsing), so its result is supplied by the oracle. -/
structure FetchOracle where
  ok : Bool
  status : Nat
  statusText : List Char
  contentTypeHeader : Option (List Char)
  body : List Nat
  fileName : List Char

def msgFetchFailed : List Char := "Failed to fetch URL: ".toList

def msgUnsupportedUrlA : List Char := "Unsupported file type from URL. Content-Type: ".toList

def msgUnsupportedUrlB : List Char := ", Filename: ".toList

/-- Model of `loadFileFromUrl`: fetch check, Content-Type driven detection
with extension fallback. -/
def loadFileFromUrl (net : FetchOracle) (url : List Char) : Except (List Char) FileInfo :=
  if net.ok = false then
    Except.error (msgFetchFailed ++ printNat net.status ++ ' ' :: net.statusText)
  else
    let contentType :=
      match net.contentTypeHeader with
      | some h => h.takeWhile (fun c => c ≠ ';')
      | none => []
    let fileName := net.fileName
    match alookup MIME_TO_FILE_TYPE contentType with
    | some ft =>
      Except.ok
        { path := url, name := fileName, type := ft, mimeType := contentType,
          size := net.body.length, content := net.body,
          base64 := if ft = .text then none else some (base64Encode net.body) }
    | none =>
      let ext := toLowerList (extname fileName)
      match alookup MIME_TYPES ext, alookup FILE_TYPE_CATEGORIES ext with
      | some mt, some ft =>
        Except.ok
          { path := url, name := fileName, type := ft, mimeType := mt,
            size := net.body.length, content := net.body,
            base64 := if ft = .text then none else some (base64Encode net.body) }
      | _, _ =>
        Except.error (msgUnsupportedUrlA ++ contentType ++ msgUnsupportedUrlB ++ fileName)

def httpPre : List Char := "http://".toList

def httpsPre : List Char := "https://".toList

/-- Model of `isUrl`. -/
def isUrl (s : List Char) : Bool := startsWithL httpPre s || startsWithL httpsPre s

/-- What `processExtraction` persists via `saveToFile` for each branch; the
pretty JSON serialization (`JSON.stringify(content, null, 2)`) is recorded
by value, its layout being out of scope. -/
inductive SavedContent where
  | jsonPretty (v : Json)
  | textRaw (s : List Char)

/-- Observable collaborator invocations made during one extraction call. -/
inductive Event where
  | adapterText (p : AIProvider)
  | adapterJson (p : AIProvider)
  | save (path : List Char) (content : SavedContent)

/-- Per-call environment: the outcome of the persistence collaborator for a
path, and the wall-clock delta observed at result packaging. -/
structure CallEnv where
  saveResult : List Char → Except (List Char) Unit
  elapsedMs : Nat

def codeExtractionError : List Char := "EXTRACTION_ERROR".toList

def codeUnsupportedFileType : List Char := "UNSUPPORTED_FILE_TYPE".toList

def codeMissingSchema : List Char := "MISSING_SCHEMA".toList

def msgSchemaRequired : List Char := "Schema is required for JSON extraction".toList

/-- The printed name of a provider identity. -/
def providerNameStr : AIProvider → List Char
  | .gemini => "gemini".toList
  | .openai => "openai".toList
  | .claude => "claude".toList
  | .grok => "grok".toList
  | .vertex => "vertex".toList

/-- The printed name of a file type category. -/
def fileTypeStr : SupportedFileType → List Char
  | .pdf => "pdf".toList
  | .image => "image".toList
  | .text => "text".toList

/-- The unsupported-file-type failure message of `processExtraction`. -/
def msgNoSupport (p : AIProvider) (t : SupportedFileType) : List Char :=
  "Provider ".toList ++ providerNameStr p ++ " does not support file type: ".toList ++
    fileTypeStr t

namespace OcrAI

/-- `OcrAI.createErrorResult`: normalize a caught exception into the tagged
failure result. -/
def createErrorResult (message : List Char) : ExtractionResult :=
  ExtractionResult.failure message codeExtractionError

/-- `OcrAI.processExtraction`, with the reads of the mutable `this.provider`
field made explicit: `pDispatch` is the field's value during the synchronous
segment that checks support and dispatches the adapter call, `pMeta` its
value at result packaging (after the adapter's promise resolves). A plain
call has both equal; a `setProvider` occurring while the adapter call is in
flight makes them differ. The second component lists the collaborator
invocations (adapter dispatch, persistence) the call performed. -/
def processExtractionCore (pDispatch pMeta : Provider) (env : CallEnv)
    (file : FileInfo) (options : Option ExtractionOptions) :
    ExtractionResult × List Event :=
  let format := (options.bind ExtractionOptions.format).getD OutputFormat.text
  if pDispatch.supportsFileType file.type = false then
    (ExtractionResult.failure (msgNoSupport pDispatch.name file.type) codeUnsupportedFileType, [])
  else
    match format with
    | .json =>
      match options.bind ExtractionOptions.schema with
      | none => (ExtractionResult.failure msgSchemaRequired codeMissingSchema, [])
      | some schema =>
        match pDispatch.behavior.extractJsonB file schema options with
        | .error e => (createErrorResult e, [Event.adapterJson pDispatch.name])
        | .ok pres =>
          let result := ExtractionResult.jsonSuccess pres.content
            { provider := pMeta.name, model := pMeta.model, fileType := file.type,
              fileName := file.name, processingTimeMs := env.elapsedMs,
              tokens := pres.tokens }
          match options.bind ExtractionOptions.outputPath with
          | none => (result, [Event.adapterJson pDispatch.name])
          | some p =>
            match env.saveResult p with
            | .ok _ =>
              (result, [Event.adapterJson pDispatch.name, Event.save p (.jsonPretty pres.content)])
            | .error e =>
              (createErrorResult e,
               [Event.adapterJson pDispatch.name, Event.save p (.jsonPretty pres.content)])
    | .text =>
      match pDispatch.behavior.extractTextB file options with
      | .error e => (createErrorResult e, [Event.adapterText pDispatch.name])
      | .ok pres =>
        let result := ExtractionResult.textSuccess pres.content
          { provider := pMeta.name, model := pMeta.model, fileType := file.type,
            fileName := file.name, processingTimeMs := env.elapsedMs,
            tokens := pres.tokens }
        match options.bind ExtractionOptions.outputPath with
        | none => (result, [Event.adapterText pDispatch.name])
        | some p =>
          match env.saveResult p with
          | .ok _ =>
            (result, [Event.adapterText pDispatch.name, Event.save p (.textRaw pres.content)])
          | .error e =>
            (createErrorResult e,
             [Event.adapterText pDispatch.name, Event.save p (.textRaw pres.content)])

/-- `processExtraction` without any mid-flight reconfiguration. -/
def processExtraction (p : Provider) (env : CallEnv) (file : FileInfo)
    (options : Option ExtractionOptions) : ExtractionResult × List Event :=
  processExtractionCore p p env file options

/-- `OcrAI.extract`: route the source to the URL or path loader, then
process; any loader exception is caught and normalized. -/
def extract (p : Provider) (fs : FsOracle) (net : FetchOracle) (env : CallEnv)
    (source : List Char) (options : Option ExtractionOptions) :
    ExtractionResult × List Event :=
  match (if isUrl source then loadFileFromUrl net source else loadFile fs source) with
  | .error e => (createErrorResult e, [])
  | .ok file => processExtraction p env file options

/-- `OcrAI.extractFromBuffer`. -/
def extractFromBuffer (p : Provider) (env : CallEnv) (buffer : List Nat)
    (fileName : List Char) (options : Option ExtractionOptions) :
    ExtractionResult × List Event :=
  match loadFileFromBuffer buffer fileName none with
  | .error e => (createErrorResult e, [])
  | .ok file => processExtraction p env file options

/-- `OcrAI.extractFromBase64`. -/
def extractFromBase64 (p : Provider) (env : CallEnv) (base64 : List Char)
    (fileName : List Char) (options : Option ExtractionOptions) :
    ExtractionResult × List Event :=
  match loadFileFromBase64 base64 fileName none with
  | .error e => (createErrorResult e, [])
  | .ok file => processExtraction p env file options

end OcrAI

/-- The success/failure discriminator of a result. -/
def ExtractionResult.isSuccess : ExtractionResult → Bool
  | .textSuccess _ _ => true
  | .jsonSuccess _ _ => true
  | .failure _ _ => false

/-- The error code of a failure result. -/
def ExtractionResult.code? : ExtractionResult → Option (List Char)
  | .failure _ c => some c
  | _ => none

/-- The metadata of a success result. -/
def ExtractionResult.metadata? : ExtractionResult → Option ExtractionMetadata
  | .textSuccess _ m => some m
  | .jsonSuccess _ m => some m
  | .failure _ _ => none

mutual

/-- Fuel lower bound for `parseValue` on a serialized value. -/
def jsize : Json → Nat
  | .null => 1
  | .bool _ => 1
  | .num _ => 1
  | .str _ => 1
  | .arr xs => 1 + elemsSize xs
  | .obj fs => 1 + fieldsSize fs

/-- Fuel lower bound for `parseElems` on serialized elements. -/
def elemsSize : List Json → Nat
  | [] => 0
  | x :: xs => 1 + jsize x + elemsSize xs

/-- Fuel lower bound for `parseFields` on serialized members. -/
def fieldsSize : List (List Char × Json) → Nat
  | [] => 0
  | (_, v) :: fs => 1 + jsize v + fieldsSize fs

end

/-- Continuations after a serialized value inside a JSON document: end of
input, a comma, or a closing bracket or brace. -/
def restOk (rest : List Char) : Bool :=
  match rest with
  | [] => true
  | c :: _ => (c = ',') || (c = rbrackChar) || (c = rbraceChar)

/-- A result is a value of the tagged union (success or failure). -/
def isTagged (r : ExtractionResult) : Prop :=
  r.isSuccess = true ∨ ∃ msg code, r = ExtractionResult.failure msg code

/-- A trivial adapter behavior used to instantiate universally quantified
statements at concrete inputs. -/
def stubBehavior : ProviderBehavior :=
  { extractTextB := fun _ _ => Except.ok { content := "stub-text".toList, tokens := none },
    extractJsonB := fun _ _ _ => Except.ok { content := Json.null, tokens := none } }

/-- A backend oracle assigning the stub behavior to every identity. -/
def stubNet : AIProvider → ProviderBehavior := fun _ => stubBehavior

/-- A concrete gemini adapter. -/
def provGemini : Provider :=
  { name := .gemini, model := defaultGeminiModel,
    supportsFileType := BaseProvider.supportsFileType,
    behavior :=
      { extractTextB := fun _ _ => Except.ok { content := "old-adapter".toList, tokens := none },
        extractJsonB := fun _ _ _ => Except.ok { content := Json.null, tokens := none } } }

/-- A concrete grok adapter with a distinguishable behavior. -/
def provGrok : Provider :=
  { name := .grok, model := defaultGrokModel,
    supportsFileType := BaseProvider.supportsFileType,
    behavior :=
      { extractTextB := fun _ _ => Except.ok { content := "new-adapter".toList, tokens := none },
        extractJsonB := fun _ _ _ => Except.ok { content := Json.null, tokens := none } } }

/-- A call environment whose persistence always succeeds. -/
def stubEnv : CallEnv := { saveResult := fun _ => Except.ok (), elapsedMs := 5 }

/-- A concrete already-loaded text file. -/
def stubTextFile : FileInfo :=
  { path := [], name := "invoice.txt".toList, type := .text,
    mimeType := "text/plain".toList, size := 3, content := [65, 66, 67], base64 := none }

/-- Extraction options requesting JSON output without a schema. -/
def optsJsonNoSchema : ExtractionOptions :=
  { format := some .json, schema := none, prompt := none, language := none,
    outputPath := none, modelConfig := none }

/-- A filesystem oracle for an existing regular file with an unrecognized
`.docx` extension. -/
def fsDocx : FsOracle :=
  { resolved := "/tmp/document.docx".toList, accessOk := true, isFile := true,
    size := 4, readResult := Except.ok [1, 2, 3, 4] }

/-- A filesystem oracle for a missing file. -/
def fsMissing : FsOracle :=
  { resolved := "/tmp/absent.txt".toList, accessOk := false, isFile := false,
    size := 0, readResult := Except.error ( "unreachable".toList) }

/-- A fetch oracle (unused by non-URL sources). -/
def netStub : FetchOracle :=
  { ok := true, status := 200, statusText := "OK".toList,
    contentTypeHeader := some ( "text/plain".toList), body := [65],
    fileName := "download.txt".toList }

/-! ## Helper lemmas -/

theorem alookup_objSet {α β : Type} [DecidableEq α] (l : List (α × β)) (k q : α) (v : β) :
    alookup (objSet l k v) q = if q = k then some v else alookup l q := by
  induction l with
  | nil => simp [objSet, alookup]
  | cons h t ih =>
    obtain ⟨a, b⟩ := h
    by_cases hak : a = k
    · subst hak
      by_cases hq : q = a
      · subst hq
        simp [objSet, alookup]
      · simp [objSet, alookup, hq]
    · by_cases hq : q = a
      · subst hq
        simp [objSet, alookup, hak, Ne.symm hak]
      · simp [objSet, alookup, hak, hq, ih]

/-! ## C2: missing schema short-circuits before the adapter call -/

/-- C2: when `options.format` is `'json'` and no schema is supplied, and the
file's type is supported by the provider, `processExtraction` fails with code
`MISSING_SCHEMA` and performs no collaborator invocation at all (in
particular `extractJson`/`extractText` is never invoked). -/
theorem claim_C2_missing_schema (p : Provider) (env : CallEnv) (file : FileInfo)
    (opts : ExtractionOptions)
    (hsup : p.supportsFileType file.type = true)
    (hfmt : opts.format = some OutputFormat.json)
    (hsch : opts.schema = none) :
    OcrAI.processExtraction p env file (some opts) =
      (ExtractionResult.failure msgSchemaRequired codeMissingSchema, []) := by
  unfold OcrAI.processExtraction OcrAI.processExtractionCore
  simp [hsup, hfmt, hsch]

/-- Witness for C2 at a concrete provider, file and options. -/
theorem claim_C2_witness :
    OcrAI.processExtraction provGemini stubEnv stubTextFile (some optsJsonNoSchema) =
      (ExtractionResult.failure msgSchemaRequired codeMissingSchema, []) :=
  claim_C2_missing_schema provGemini stubEnv stubTextFile optsJsonNoSchema
    (by decide) rfl rfl

/-! ## C9: reconfiguration during an in-flight call -/

/-- C9 (amended): if `setProvider` replaces the adapter while a call is
suspended in the adapter's promise, the in-flight call was served by the old
adapter (the dispatch event names it and the content is the old adapter's),
but the eventual result's `metadata.provider`/`metadata.model` are read from
the mutable field after resumption and therefore name the NEW provider; a
subsequent fresh call reflects the new provider throughout. -/
theorem claim_C9_swap_metadata (pOld pNew : Provider) (env : CallEnv) (file : FileInfo)
    (opts : Option ExtractionOptions) (pres pres2 : ProviderResult (List Char))
    (hsupOld : pOld.supportsFileType file.type = true)
    (hsupNew : pNew.supportsFileType file.type = true)
    (hfmt : (opts.bind ExtractionOptions.format).getD OutputFormat.text = OutputFormat.text)
    (hpath : opts.bind ExtractionOptions.outputPath = none)
    (hcallOld : pOld.behavior.extractTextB file opts = Except.ok pres)
    (hcallNew : pNew.behavior.extractTextB file opts = Except.ok pres2) :
    OcrAI.processExtractionCore pOld pNew env file opts =
      (ExtractionResult.textSuccess pres.content
        { provider := pNew.name, model := pNew.model, fileType := file.type,
          fileName := file.name, processingTimeMs := env.elapsedMs, tokens := pres.tokens },
       [Event.adapterText pOld.name]) ∧
    OcrAI.processExtraction pNew env file opts =
      (ExtractionResult.textSuccess pres2.content
        { provider := pNew.name, model := pNew.model, fileType := file.type,
          fileName := file.name, processingTimeMs := env.elapsedMs, tokens := pres2.tokens },
       [Event.adapterText pNew.name]) := by
  constructor
  · unfold OcrAI.processExtractionCore
    simp [hsupOld, hfmt, hpath, hcallOld]
  · unfold OcrAI.processExtraction OcrAI.processExtractionCore
    simp [hsupNew, hfmt, hpath, hcallNew]

/-- Witness for the amended C9 at concrete adapters. -/
theorem claim_C9_swap_metadata_witness :
    OcrAI.processExtractionCore provGemini provGrok stubEnv stubTextFile none =
      (ExtractionResult.textSuccess ( "old-adapter".toList)
        { provider := .grok, model := defaultGrokModel, fileType := .text,
          fileName := "invoice.txt".toList, processingTimeMs := 5, tokens := none },
       [Event.adapterText .gemini]) ∧
    OcrAI.processExtraction provGrok stubEnv stubTextFile none =
      (ExtractionResult.textSuccess ( "new-adapter".toList)
        { provider := .grok, model := defaultGrokModel, fileType := .text,
          fileName := "invoice.txt".toList, processingTimeMs := 5, tokens := none },
       [Event.adapterText .grok]) :=
  claim_C9_swap_metadata provGemini provGrok stubEnv stubTextFile none
    { content := "old-adapter".toList, tokens := none }
    { content := "new-adapter".toList, tokens := none }
    (by decide) (by decide) rfl rfl rfl rfl

/-- Counterexample to C9 as stated: with a reconfiguration between dispatch
and packaging, the call is served by the gemini adapter (the dispatch event
and the returned content are gemini's), yet the eventual `metadata.provider`
is `grok`, the newly configured provider. -/
theorem claim_C9_counterexample :
    (OcrAI.processExtractionCore provGemini provGrok stubEnv stubTextFile none).2 =
      [Event.adapterText AIProvider.gemini] ∧
    ((OcrAI.processExtractionCore provGemini provGrok stubEnv stubTextFile none).1.metadata?.map
        ExtractionMetadata.provider) = some AIProvider.grok ∧
    AIProvider.grok ≠ AIProvider.gemini :=
  ⟨rfl, rfl, by decide⟩

/-! ## C10: the unsupported-file-type branch is unreachable -/

/-- C10: every `FileInfo` produced by any loader has its category among
`pdf`, `image`, `text`; every adapter built by `createProvider` accepts all
three categories; hence `processExtraction` with such an adapter never
returns an `UNSUPPORTED_FILE_TYPE` failure. -/
theorem claim_C10_unsupported_unreachable (config : OcrConfig)
    (net : AIProvider → ProviderBehavior) (p : Provider)
    (hp : OcrAI.createProvider config net = Except.ok p) :
    (∀ t, p.supportsFileType t = true) ∧
    (∀ fs path fi, loadFile fs path = Except.ok fi →
      fi.type ∈ [SupportedFileType.pdf, SupportedFileType.image, SupportedFileType.text]) ∧
    (∀ buf nm mt fi, loadFileFromBuffer buf nm mt = Except.ok fi →
      fi.type ∈ [SupportedFileType.pdf, SupportedFileType.image, SupportedFileType.text]) ∧
    (∀ b64 nm mt fi, loadFileFromBase64 b64 nm mt = Except.ok fi →
      fi.type ∈ [SupportedFileType.pdf, SupportedFileType.image, SupportedFileType.text]) ∧
    (∀ netf url fi, loadFileFromUrl netf url = Except.ok fi →
      fi.type ∈ [SupportedFileType.pdf, SupportedFileType.image, SupportedFileType.text]) ∧
    (∀ env file opts e,
      (OcrAI.processExtraction p env file opts).1 ≠
        ExtractionResult.failure e codeUnsupportedFileType) := by
  have hsup : ∀ t, p.supportsFileType t = true := by
    intro t
    unfold OcrAI.createProvider at hp
    repeat' split at hp
    all_goals try simp_all
    all_goals (subst hp; cases t <;> rfl)
  refine ⟨hsup, ?_, ?_, ?_, ?_, ?_⟩
  · intro fs path fi _
    cases fi.type <;> simp
  · intro buf nm mt fi _
    cases fi.type <;> simp
  · intro b64 nm mt fi _
    cases fi.type <;> simp
  · intro netf url fi _
    cases fi.type <;> simp
  · intro env file opts e
    unfold OcrAI.processExtraction OcrAI.processExtractionCore
    simp [hsup file.type]
    split <;> simp_all [OcrAI.createErrorResult]
    all_goals repeat' split
    all_goals simp_all [OcrAI.createErrorResult]
    all_goals (intro h2; decide)

/-- Witness for C10 at a concrete configuration and call. -/
theorem claim_C10_witness :
    OcrAI.createProvider
        { provider := .gemini, apiKey := some ( "key".toList), model := none,
          vertexConfig := none } stubNet =
      Except.ok
        { name := .gemini, model := defaultGeminiModel,
          supportsFileType := BaseProvider.supportsFileType, behavior := stubNet .gemini } ∧
    ({ name := .gemini, model := defaultGeminiModel,
       supportsFileType := BaseProvider.supportsFileType,
       behavior := stubNet .gemini } : Provider).supportsFileType SupportedFileType.pdf = true ∧
    (OcrAI.processExtraction
        { name := .gemini, model := defaultGeminiModel,
          supportsFileType := BaseProvider.supportsFileType, behavior := stubNet .gemini }
        stubEnv stubTextFile none).1 ≠
      ExtractionResult.failure [] codeUnsupportedFileType := by
  have hp : OcrAI.createProvider
      { provider := .gemini, apiKey := some ( "key".toList), model := none,
        vertexConfig := none } stubNet =
      Except.ok
        { name := .gemini, model := defaultGeminiModel,
          supportsFileType := BaseProvider.supportsFileType, behavior := stubNet .gemini } := rfl
  have h := claim_C10_unsupported_unreachable
    { provider := .gemini, apiKey := some ( "key".toList), model := none, vertexConfig := none }
    stubNet
    { name := .gemini, model := defaultGeminiModel,
      supportsFileType := BaseProvider.supportsFileType, behavior := stubNet .gemini } hp
  exact ⟨hp, h.1 SupportedFileType.pdf, h.2.2.2.2.2 stubEnv stubTextFile none []⟩

/-! ## C8: provider identity and model resolution -/

/-- C8: for each of the five identities, constructing with valid credentials
succeeds, `getProvider` returns the requested identity, and `getModel`
returns the caller-supplied model when one was given, else the documented
per-provider default. -/
theorem claim_C8_identity_and_model (net : AIProvider → ProviderBehavior)
    (k m : List Char) (vc : VertexConfig)
    (hk0 : k ≠ []) (hk : trimList k ≠ []) (hm : m ≠ []) :
    ((mkOcrAI { provider := .gemini, apiKey := some k, model := none, vertexConfig := none } net).map
        OcrAI.getProvider = Except.ok .gemini ∧
     (mkOcrAI { provider := .gemini, apiKey := some k, model := none, vertexConfig := none } net).map
        OcrAI.getModel = Except.ok defaultGeminiModel ∧
     (mkOcrAI { provider := .gemini, apiKey := some k, model := some m, vertexConfig := none } net).map
        OcrAI.getModel = Except.ok m) ∧
    ((mkOcrAI { provider := .openai, apiKey := some k, model := none, vertexConfig := none } net).map
        OcrAI.getProvider = Except.ok .openai ∧
     (mkOcrAI { provider := .openai, apiKey := some k, model := none, vertexConfig := none } net).map
        OcrAI.getModel = Except.ok defaultOpenAIModel ∧
     (mkOcrAI { provider := .openai, apiKey := some k, model := some m, vertexConfig := none } net).map
        OcrAI.getModel = Except.ok m) ∧
    ((mkOcrAI { provider := .claude, apiKey := some k, model := none, vertexConfig := none } net).map
        OcrAI.getProvider = Except.ok .claude ∧
     (mkOcrAI { provider := .claude, apiKey := some k, model := none, vertexConfig := none } net).map
        OcrAI.getModel = Except.ok defaultClaudeModel ∧
     (mkOcrAI { provider := .claude, apiKey := some k, model := some m, vertexConfig := none } net).map
        OcrAI.getModel = Except.ok m) ∧
    ((mkOcrAI { provider := .grok, apiKey := some k, model := none, vertexConfig := none } net).map
        OcrAI.getProvider = Except.ok .grok ∧
     (mkOcrAI { provider := .grok, apiKey := some k, model := none, vertexConfig := none } net).map
        OcrAI.getModel = Except.ok defaultGrokModel ∧
     (mkOcrAI { provider := .grok, apiKey := some k, model := some m, vertexConfig := none } net).map
        OcrAI.getModel = Except.ok m) ∧
    ((mkOcrAI { provider := .vertex, apiKey := none, model := none, vertexConfig := some vc } net).map
        OcrAI.getProvider = Except.ok .vertex ∧
     (mkOcrAI { provider := .vertex, apiKey := none, model := none, vertexConfig := some vc } net).map
        OcrAI.getModel = Except.ok defaultVertexModel ∧
     (mkOcrAI { provider := .vertex, apiKey := none, model := some m, vertexConfig := some vc } net).map
        OcrAI.getModel = Except.ok m) := by
  have hctor : ∀ nm : List Char, baseProviderCtor nm k = Except.ok () := by
    intro nm
    unfold baseProviderCtor
    simp [hk0, hk]
  have hvx : baseProviderCtor ['V', 'e', 'r', 't', 'e', 'x', 'P', 'r', 'o', 'v', 'i', 'd', 'e', 'r']
      ['v', 'e', 'r', 't', 'e', 'x'] = Except.ok () := rfl
  simp [mkOcrAI, OcrAI.createProvider, OcrAI.getProvider, OcrAI.getModel,
    modelOrDefault, hk0, hm, hctor, hvx, Except.map]

/-- Witness for C8 at concrete credentials and model strings. -/
theorem claim_C8_witness :
    (mkOcrAI { provider := .claude, apiKey := some ( "key".toList), model := none,
               vertexConfig := none } stubNet).map
      OcrAI.getModel = Except.ok defaultClaudeModel ∧
    (mkOcrAI { provider := .grok, apiKey := some ( "key".toList),
               model := some ( "grok-3".toList), vertexConfig := none } stubNet).map
      OcrAI.getModel = Except.ok ( "grok-3".toList) :=
  have h := claim_C8_identity_and_model stubNet ( "key".toList) ( "grok-3".toList)
    { project := [], location := [] } (by decide) (by decide) (by decide)
  ⟨h.2.2.1.2.1, h.2.2.2.1.2.2⟩

/-! ## Per-variant request-parameter facts (used by C4 and C5) -/

theorem gemini_config_fields (mc : Option ModelConfig) :
    alookup (GeminiProvider.buildGenerationConfig mc []) keyTemperature =
      (mc.bind ModelConfig.temperature).map ParamValue.num ∧
    alookup (GeminiProvider.buildGenerationConfig mc []) keyMaxOutputTokens =
      (mc.bind ModelConfig.maxTokens).map ParamValue.num ∧
    alookup (GeminiProvider.buildGenerationConfig mc []) keyTopP =
      (mc.bind ModelConfig.topP).map ParamValue.num ∧
    alookup (GeminiProvider.buildGenerationConfig mc []) keyTopK =
      (mc.bind ModelConfig.topK).map ParamValue.num ∧
    alookup (GeminiProvider.buildGenerationConfig mc []) keyStopSequences =
      (mc.bind ModelConfig.stopSequences).map ParamValue.strList := by
  have h1 : keyTemperature ≠ keyMaxOutputTokens := by decide
  have h2 : keyTemperature ≠ keyTopP := by decide
  have h3 : keyTemperature ≠ keyTopK := by decide
  have h4 : keyTemperature ≠ keyStopSequences := by decide
  have h5 : keyMaxOutputTokens ≠ keyTemperature := by decide
  have h6 : keyMaxOutputTokens ≠ keyTopP := by decide
  have h7 : keyMaxOutputTokens ≠ keyTopK := by decide
  have h8 : keyMaxOutputTokens ≠ keyStopSequences := by decide
  have h9 : keyTopP ≠ keyTemperature := by decide
  have h10 : keyTopP ≠ keyMaxOutputTokens := by decide
  have h11 : keyTopP ≠ keyTopK := by decide
  have h12 : keyTopP ≠ keyStopSequences := by decide
  have h13 : keyTopK ≠ keyTemperature := by decide
  have h14 : keyTopK ≠ keyMaxOutputTokens := by decide
  have h15 : keyTopK ≠ keyTopP := by decide
  have h16 : keyTopK ≠ keyStopSequences := by decide
  have h17 : keyStopSequences ≠ keyTemperature := by decide
  have h18 : keyStopSequences ≠ keyMaxOutputTokens := by decide
  have h19 : keyStopSequences ≠ keyTopP := by decide
  have h20 : keyStopSequences ≠ keyTopK := by decide
  rcases mc with _ | ⟨t, mx, tp, tk, ss⟩
  · simp [GeminiProvider.buildGenerationConfig, alookup]
  · cases t <;> cases mx <;> cases tp <;> cases tk <;> cases ss <;>
      simp [GeminiProvider.buildGenerationConfig, alookup_objSet, alookup,
        h1, h2, h3, h4, h5, h6, h7, h8, h9, h10, h11, h12, h13, h14, h15, h16,
        h17, h18, h19, h20]

theorem vertex_config_fields (mc : Option ModelConfig) :
    alookup (VertexProvider.buildGenerationConfig mc []) keyTemperature =
      (mc.bind ModelConfig.temperature).map ParamValue.num ∧
    alookup (VertexProvider.buildGenerationConfig mc []) keyMaxOutputTokens =
      (mc.bind ModelConfig.maxTokens).map ParamValue.num ∧
    alookup (VertexProvider.buildGenerationConfig mc []) keyTopP =
      (mc.bind ModelConfig.topP).map ParamValue.num ∧
    alookup (VertexProvider.buildGenerationConfig mc []) keyTopK =
      (mc.bind ModelConfig.topK).map ParamValue.num ∧
    alookup (VertexProvider.buildGenerationConfig mc []) keyStopSequences =
      (mc.bind ModelConfig.stopSequences).map ParamValue.strList := by
  have h1 : keyTemperature ≠ keyMaxOutputTokens := by decide
  have h2 : keyTemperature ≠ keyTopP := by decide
  have h3 : keyTemperature ≠ keyTopK := by decide
  have h4 : keyTemperature ≠ keyStopSequences := by decide
  have h5 : keyMaxOutputTokens ≠ keyTemperature := by decide
  have h6 : keyMaxOutputTokens ≠ keyTopP := by decide
  have h7 : keyMaxOutputTokens ≠ keyTopK := by decide
  have h8 : keyMaxOutputTokens ≠ keyStopSequences := by decide
  have h9 : keyTopP ≠ keyTemperature := by decide
  have h10 : keyTopP ≠ keyMaxOutputTokens := by decide
  have h11 : keyTopP ≠ keyTopK := by decide
  have h12 : keyTopP ≠ keyStopSequences := by decide
  have h13 : keyTopK ≠ keyTemperature := by decide
  have h14 : keyTopK ≠ keyMaxOutputTokens := by decide
  have h15 : keyTopK ≠ keyTopP := by decide
  have h16 : keyTopK ≠ keyStopSequences := by decide
  have h17 : keyStopSequences ≠ keyTemperature := by decide
  have h18 : keyStopSequences ≠ keyMaxOutputTokens := by decide
  have h19 : keyStopSequences ≠ keyTopP := by decide
  have h20 : keyStopSequences ≠ keyTopK := by decide
  rcases mc with _ | ⟨t, mx, tp, tk, ss⟩
  · simp [VertexProvider.buildGenerationConfig, alookup]
  · cases t <;> cases mx <;> cases tp <;> cases tk <;> cases ss <;>
      simp [VertexProvider.buildGenerationConfig, alookup_objSet, alookup,
        h1, h2, h3, h4, h5, h6, h7, h8, h9, h10, h11, h12, h13, h14, h15, h16,
        h17, h18, h19, h20]

theorem grok_options_fields (mc : Option ModelConfig) :
    alookup (GrokProvider.buildCompletionOptions mc) keyMaxTokens =
      some (ParamValue.num ((mc.bind ModelConfig.maxTokens).getD 16384)) ∧
    alookup (GrokProvider.buildCompletionOptions mc) keyMaxCompletionTokens = none ∧
    alookup (GrokProvider.buildCompletionOptions mc) keyTemperature =
      (mc.bind ModelConfig.temperature).map ParamValue.num ∧
    alookup (GrokProvider.buildCompletionOptions mc) keyTopPSnake =
      (mc.bind ModelConfig.topP).map ParamValue.num ∧
    alookup (GrokProvider.buildCompletionOptions mc) keyStop =
      (mc.bind ModelConfig.stopSequences).map ParamValue.strList := by
  have h1 : keyMaxTokens ≠ keyTemperature := by decide
  have h2 : keyMaxTokens ≠ keyTopPSnake := by decide
  have h3 : keyMaxTokens ≠ keyStop := by decide
  have h4 : keyMaxCompletionTokens ≠ keyMaxTokens := by decide
  have h5 : keyMaxCompletionTokens ≠ keyTemperature := by decide
  have h6 : keyMaxCompletionTokens ≠ keyTopPSnake := by decide
  have h7 : keyMaxCompletionTokens ≠ keyStop := by decide
  have h8 : keyTemperature ≠ keyMaxTokens := by decide
  have h9 : keyTemperature ≠ keyTopPSnake := by decide
  have h10 : keyTemperature ≠ keyStop := by decide
  have h11 : keyTopPSnake ≠ keyMaxTokens := by decide
  have h12 : keyTopPSnake ≠ keyTemperature := by decide
  have h13 : keyTopPSnake ≠ keyStop := by decide
  have h14 : keyStop ≠ keyMaxTokens := by decide
  have h15 : keyStop ≠ keyTemperature := by decide
  have h16 : keyStop ≠ keyTopPSnake := by decide
  rcases mc with _ | ⟨t, mx, tp, tk, ss⟩
  · simp [GrokProvider.buildCompletionOptions, alookup]
    exact ⟨h4, h8, h11, h14⟩
  · cases t <;> cases mx <;> cases tp <;> cases tk <;> cases ss <;>
      simp [GrokProvider.buildCompletionOptions, alookup_objSet, alookup,
        h1, h2, h3, h4, h5, h6, h7, h8, h9, h10, h11, h12, h13, h14, h15, h16]

theorem openai_options_fields (model : List Char) (mc : Option ModelConfig) :
    (OpenAIProvider.usesMaxCompletionTokens model = true →
      alookup (OpenAIProvider.buildCompletionOptions model mc) keyMaxCompletionTokens =
        some (ParamValue.num ((mc.bind ModelConfig.maxTokens).getD 16384)) ∧
      alookup (OpenAIProvider.buildCompletionOptions model mc) keyMaxTokens = none) ∧
    (OpenAIProvider.usesMaxCompletionTokens model = false →
      alookup (OpenAIProvider.buildCompletionOptions model mc) keyMaxTokens =
        some (ParamValue.num ((mc.bind ModelConfig.maxTokens).getD 16384)) ∧
      alookup (OpenAIProvider.buildCompletionOptions model mc) keyMaxCompletionTokens = none) ∧
    alookup (OpenAIProvider.buildCompletionOptions model mc) keyTemperature =
      (mc.bind ModelConfig.temperature).map ParamValue.num ∧
    alookup (OpenAIProvider.buildCompletionOptions model mc) keyTopPSnake =
      (mc.bind ModelConfig.topP).map ParamValue.num ∧
    alookup (OpenAIProvider.buildCompletionOptions model mc) keyStop =
      (mc.bind ModelConfig.stopSequences).map ParamValue.strList := by
  have h1 : keyMaxTokens ≠ keyTemperature := by decide
  have h2 : keyMaxTokens ≠ keyTopPSnake := by decide
  have h3 : keyMaxTokens ≠ keyStop := by decide
  have h4 : keyMaxCompletionTokens ≠ keyMaxTokens := by decide
  have h5 : keyMaxCompletionTokens ≠ keyTemperature := by decide
  have h6 : keyMaxCompletionTokens ≠ keyTopPSnake := by decide
  have h7 : keyMaxCompletionTokens ≠ keyStop := by decide
  have h8 : keyTemperature ≠ keyMaxTokens := by decide
  have h9 : keyTemperature ≠ keyTopPSnake := by decide
  have h10 : keyTemperature ≠ keyStop := by decide
  have h11 : keyTopPSnake ≠ keyMaxTokens := by decide
  have h12 : keyTopPSnake ≠ keyTemperature := by decide
  have h13 : keyTopPSnake ≠ keyStop := by decide
  have h14 : keyStop ≠ keyMaxTokens := by decide
  have h15 : keyStop ≠ keyTemperature := by decide
  have h16 : keyStop ≠ keyTopPSnake := by decide
  have h17 : keyMaxTokens ≠ keyMaxCompletionTokens := by decide
  have h18 : keyTemperature ≠ keyMaxCompletionTokens := by decide
  have h19 : keyTopPSnake ≠ keyMaxCompletionTokens := by decide
  have h20 : keyStop ≠ keyMaxCompletionTokens := by decide
  cases hu : OpenAIProvider.usesMaxCompletionTokens model <;>
    (rcases mc with _ | ⟨t, mx, tp, tk, ss⟩
     · simp [OpenAIProvider.buildCompletionOptions, hu, alookup, alookup_objSet,
         h1, h2, h3, h4, h5, h6, h7, h8, h9, h10, h11, h12, h13, h14, h15, h16,
         h17, h18, h19, h20]
     · cases t <;> cases mx <;> cases tp <;> cases tk <;> cases ss <;>
         simp [OpenAIProvider.buildCompletionOptions, hu, alookup_objSet, alookup,
           h1, h2, h3, h4, h5, h6, h7, h8, h9, h10, h11, h12, h13, h14, h15, h16,
           h17, h18, h19, h20])

theorem claude_options_fields (mc : Option ModelConfig) :
    (ClaudeProvider.buildMessageOptions mc).max_tokens =
      (mc.bind ModelConfig.maxTokens).getD 16384 ∧
    (ClaudeProvider.buildMessageOptions mc).temperature = mc.bind ModelConfig.temperature ∧
    (ClaudeProvider.buildMessageOptions mc).top_p = mc.bind ModelConfig.topP ∧
    (ClaudeProvider.buildMessageOptions mc).top_k = mc.bind ModelConfig.topK ∧
    (ClaudeProvider.buildMessageOptions mc).stop_sequences = mc.bind ModelConfig.stopSequences := by
  rcases mc with _ | ⟨t, mx, tp, tk, ss⟩
  · simp [ClaudeProvider.buildMessageOptions]
  · cases t <;> cases mx <;> cases tp <;> cases tk <;> cases ss <;>
      simp [ClaudeProvider.buildMessageOptions]

/-- A sample model configuration with only `temperature` set. -/
def mcSample : ModelConfig :=
  { temperature := some 7, maxTokens := none, topP := none, topK := none,
    stopSequences := none }

/-! ## C4: unset fields are omitted; token-limit defaulting -/

/-- C4 (amended): for every variant a field the caller left unset is omitted
from the request options (never forwarded as zero or null — its key is
absent, `none`), and a set field is forwarded under the variant's name. The
token-limit parameter is always sent with the default ceiling 16384 when
unset by the OpenAI, Grok and Claude variants, while the Gemini and Vertex
variants omit `maxOutputTokens` when unset just like any other field. -/
theorem claim_C4_param_forwarding (model : List Char) (mc : Option ModelConfig) :
    (alookup (GeminiProvider.buildGenerationConfig mc []) keyTemperature =
        (mc.bind ModelConfig.temperature).map ParamValue.num ∧
     alookup (GeminiProvider.buildGenerationConfig mc []) keyMaxOutputTokens =
        (mc.bind ModelConfig.maxTokens).map ParamValue.num ∧
     alookup (GeminiProvider.buildGenerationConfig mc []) keyTopP =
        (mc.bind ModelConfig.topP).map ParamValue.num ∧
     alookup (GeminiProvider.buildGenerationConfig mc []) keyTopK =
        (mc.bind ModelConfig.topK).map ParamValue.num ∧
     alookup (GeminiProvider.buildGenerationConfig mc []) keyStopSequences =
        (mc.bind ModelConfig.stopSequences).map ParamValue.strList) ∧
    (alookup (VertexProvider.buildGenerationConfig mc []) keyTemperature =
        (mc.bind ModelConfig.temperature).map ParamValue.num ∧
     alookup (VertexProvider.buildGenerationConfig mc []) keyMaxOutputTokens =
        (mc.bind ModelConfig.maxTokens).map ParamValue.num ∧
     alookup (VertexProvider.buildGenerationConfig mc []) keyTopP =
        (mc.bind ModelConfig.topP).map ParamValue.num ∧
     alookup (VertexProvider.buildGenerationConfig mc []) keyTopK =
        (mc.bind ModelConfig.topK).map ParamValue.num ∧
     alookup (VertexProvider.buildGenerationConfig mc []) keyStopSequences =
        (mc.bind ModelConfig.stopSequences).map ParamValue.strList) ∧
    ((OpenAIProvider.usesMaxCompletionTokens model = true →
        alookup (OpenAIProvider.buildCompletionOptions model mc) keyMaxCompletionTokens =
          some (ParamValue.num ((mc.bind ModelConfig.maxTokens).getD 16384))) ∧
     (OpenAIProvider.usesMaxCompletionTokens model = false →
        alookup (OpenAIProvider.buildCompletionOptions model mc) keyMaxTokens =
          some (ParamValue.num ((mc.bind ModelConfig.maxTokens).getD 16384))) ∧
     alookup (OpenAIProvider.buildCompletionOptions model mc) keyTemperature =
        (mc.bind ModelConfig.temperature).map ParamValue.num ∧
     alookup (OpenAIProvider.buildCompletionOptions model mc) keyTopPSnake =
        (mc.bind ModelConfig.topP).map ParamValue.num ∧
     alookup (OpenAIProvider.buildCompletionOptions model mc) keyStop =
        (mc.bind ModelConfig.stopSequences).map ParamValue.strList) ∧
    (alookup (GrokProvider.buildCompletionOptions mc) keyMaxTokens =
        some (ParamValue.num ((mc.bind ModelConfig.maxTokens).getD 16384)) ∧
     alookup (GrokProvider.buildCompletionOptions mc) keyTemperature =
        (mc.bind ModelConfig.temperature).map ParamValue.num ∧
     alookup (GrokProvider.buildCompletionOptions mc) keyTopPSnake =
        (mc.bind ModelConfig.topP).map ParamValue.num ∧
     alookup (GrokProvider.buildCompletionOptions mc) keyStop =
        (mc.bind ModelConfig.stopSequences).map ParamValue.strList) ∧
    ((ClaudeProvider.buildMessageOptions mc).max_tokens =
        (mc.bind ModelConfig.maxTokens).getD 16384 ∧
     (ClaudeProvider.buildMessageOptions mc).temperature = mc.bind ModelConfig.temperature ∧
     (ClaudeProvider.buildMessageOptions mc).top_p = mc.bind ModelConfig.topP ∧
     (ClaudeProvider.buildMessageOptions mc).top_k = mc.bind ModelConfig.topK ∧
     (ClaudeProvider.buildMessageOptions mc).stop_sequences =
        mc.bind ModelConfig.stopSequences) := by
  refine ⟨gemini_config_fields mc, vertex_config_fields mc, ?_, ?_, claude_options_fields mc⟩
  · have h := openai_options_fields model mc
    exact ⟨fun hu => (h.1 hu).1, fun hu => (h.2.1 hu).1, h.2.2⟩
  · have h := grok_options_fields mc
    exact ⟨h.1, h.2.2⟩

/-- Witness for the amended C4 at a concrete configuration (only
`temperature` set): the set field is forwarded, the unset ones are absent,
and the token-limit defaults differ per family as stated. -/
theorem claim_C4_witness :
    alookup (GeminiProvider.buildGenerationConfig (some mcSample) []) keyTemperature =
      some (ParamValue.num 7) ∧
    alookup (GeminiProvider.buildGenerationConfig (some mcSample) []) keyMaxOutputTokens =
      none ∧
    alookup (GrokProvider.buildCompletionOptions (some mcSample)) keyMaxTokens =
      some (ParamValue.num 16384) ∧
    (ClaudeProvider.buildMessageOptions (some mcSample)).max_tokens = 16384 :=
  have h := claim_C4_param_forwarding ( "gpt-4o".toList) (some mcSample)
  ⟨h.1.1, h.1.2.1, h.2.2.2.1.1, h.2.2.2.2.1⟩

/-- Counterexample to C4 as stated: the Gemini variant, given no caller
`maxTokens`, omits the maximum-output-tokens parameter entirely instead of
sending the default ceiling 16384. -/
theorem claim_C4_counterexample :
    alookup (GeminiProvider.buildGenerationConfig none []) keyMaxOutputTokens = none ∧
    (none : Option ParamValue) ≠ some (ParamValue.num 16384) := by
  exact ⟨rfl, by decide⟩

/-! ## C5: the token-limit parameter name -/

/-- C5 (amended): in `OpenAIProvider` the token-limit parameter is named
`max_completion_tokens` exactly when the configured model starts with
`gpt-5`, `o1` or `o3`, and `max_tokens` otherwise; `GrokProvider` always
names it `max_tokens`, regardless of the configured model. -/
theorem claim_C5_token_param_name (model : List Char) (mc : Option ModelConfig) :
    (OpenAIProvider.usesMaxCompletionTokens model = true →
      alookup (OpenAIProvider.buildCompletionOptions model mc) keyMaxCompletionTokens =
        some (ParamValue.num ((mc.bind ModelConfig.maxTokens).getD 16384)) ∧
      alookup (OpenAIProvider.buildCompletionOptions model mc) keyMaxTokens = none) ∧
    (OpenAIProvider.usesMaxCompletionTokens model = false →
      alookup (OpenAIProvider.buildCompletionOptions model mc) keyMaxTokens =
        some (ParamValue.num ((mc.bind ModelConfig.maxTokens).getD 16384)) ∧
      alookup (OpenAIProvider.buildCompletionOptions model mc) keyMaxCompletionTokens = none) ∧
    alookup (GrokProvider.buildCompletionOptions mc) keyMaxTokens =
      some (ParamValue.num ((mc.bind ModelConfig.maxTokens).getD 16384)) ∧
    alookup (GrokProvider.buildCompletionOptions mc) keyMaxCompletionTokens = none :=
  have ho := openai_options_fields model mc
  have hg := grok_options_fields mc
  ⟨ho.1, ho.2.1, hg.1, hg.2.1⟩

/-- Witness for the amended C5 at a model with the `o1` prefix and one
without. -/
theorem claim_C5_witness :
    alookup (OpenAIProvider.buildCompletionOptions ( "o1-mini".toList) none)
      keyMaxCompletionTokens = some (ParamValue.num 16384) ∧
    alookup (OpenAIProvider.buildCompletionOptions ( "gpt-4o".toList) none)
      keyMaxTokens = some (ParamValue.num 16384) :=
  ⟨((claim_C5_token_param_name ( "o1-mini".toList) none).1 (by decide)).1,
   ((claim_C5_token_param_name ( "gpt-4o".toList) none).2.1 (by decide)).1⟩

/-- Counterexample to C5 as stated: `o1-mini` has one of the listed
prefixes, yet the Grok relay's completion options (which ignore the model
identifier altogether) name the token limit `max_tokens`, never
`max_completion_tokens`. -/
theorem claim_C5_counterexample :
    OpenAIProvider.usesMaxCompletionTokens ( "o1-mini".toList) = true ∧
    alookup (GrokProvider.buildCompletionOptions none) keyMaxCompletionTokens = none ∧
    alookup (GrokProvider.buildCompletionOptions none) keyMaxTokens =
      some (ParamValue.num 16384) := by
  refine ⟨by decide, rfl, rfl⟩

/-! ## C3: failure code on unsupported extensions -/

theorem alookup_isSome_of_keys_eq {α β γ : Type} [DecidableEq α] :
    ∀ (l1 : List (α × β)) (l2 : List (α × γ)),
      l1.map Prod.fst = l2.map Prod.fst →
      ∀ e, (alookup l1 e).isSome = (alookup l2 e).isSome := by
  intro l1
  induction l1 with
  | nil =>
    intro l2 h e
    cases l2 with
    | nil => rfl
    | cons b t => simp at h
  | cons a t ih =>
    intro l2 h e
    cases l2 with
    | nil => simp at h
    | cons b t2 =>
      obtain ⟨a1, a2⟩ := a
      obtain ⟨b1, b2⟩ := b
      simp at h
      obtain ⟨hk, ht⟩ := h
      subst hk
      by_cases he : e = a1
      · simp [alookup, he]
      · simp [alookup, he, ih t2 ht e]

theorem mime_types_keys_eq :
    MIME_TYPES.map Prod.fst = FILE_TYPE_CATEGORIES.map Prod.fst := rfl

/-- C3 (amended): a local source whose (lower-cased) extension is outside
the recognized set makes the loader throw before any adapter/backend
involvement; `extract` catches this and normalizes it through
`createErrorResult`, so the surfaced code is `EXTRACTION_ERROR` (the
catch-all), not `UNSUPPORTED_FILE_TYPE`, and no collaborator is invoked. -/
theorem claim_C3_unsupported_ext_code (p : Provider) (fs : FsOracle) (net : FetchOracle)
    (env : CallEnv) (source : List Char) (opts : Option ExtractionOptions)
    (hurl : isUrl source = false)
    (hacc : fs.accessOk = true)
    (hfile : fs.isFile = true)
    (hext : alookup FILE_TYPE_CATEGORIES (toLowerList (extname fs.resolved)) = none) :
    OcrAI.extract p fs net env source opts =
      (ExtractionResult.failure (unsupportedTypeMsg (toLowerList (extname fs.resolved)))
        codeExtractionError, []) ∧
    codeExtractionError ≠ codeUnsupportedFileType := by
  have hmime : alookup MIME_TYPES (toLowerList (extname fs.resolved)) = none := by
    have hs := alookup_isSome_of_keys_eq MIME_TYPES FILE_TYPE_CATEGORIES mime_types_keys_eq
      (toLowerList (extname fs.resolved))
    rw [hext] at hs
    cases hm : alookup MIME_TYPES (toLowerList (extname fs.resolved)) with
    | none => rfl
    | some v => rw [hm] at hs; simp at hs
  constructor
  · unfold OcrAI.extract
    rw [hurl]
    unfold loadFile
    simp only [hacc, hfile, hext, hmime]
    simp [OcrAI.createErrorResult]
  · decide

/-- Witness for the amended C3 at a concrete `.docx` path. -/
theorem claim_C3_witness :
    OcrAI.extract provGemini fsDocx netStub stubEnv ( "document.docx".toList) none =
      (ExtractionResult.failure
        (unsupportedTypeMsg (toLowerList (extname fsDocx.resolved)))
        codeExtractionError, []) ∧
    codeExtractionError ≠ codeUnsupportedFileType :=
  claim_C3_unsupported_ext_code provGemini fsDocx netStub stubEnv
    ( "document.docx".toList) none (by decide) rfl rfl (by decide)

/-- Counterexample to C3 as stated: for the `.docx` source the failure code
is the catch-all `EXTRACTION_ERROR`, not `UNSUPPORTED_FILE_TYPE`. -/
theorem claim_C3_counterexample :
    (OcrAI.extract provGemini fsDocx netStub stubEnv ( "document.docx".toList) none).1.code? =
      some codeExtractionError ∧
    codeExtractionError ≠ codeUnsupportedFileType :=
  ⟨rfl, by decide⟩

/-! ## C1: extraction always resolves to the tagged union -/

theorem isTagged_all (r : ExtractionResult) : isTagged r := by
  cases r with
  | textSuccess c m => exact Or.inl rfl
  | jsonSuccess d m => exact Or.inl rfl
  | failure e c => exact Or.inr ⟨e, c, rfl⟩

/-- C1: `extract`, `extractFromBuffer` and `extractFromBase64` are total and
always produce a value of the tagged union; every exception a stage raises
(loading, the adapter call — which includes its JSON parsing — or
persistence) is converted by `createErrorResult` into a `Failure`, never
propagated. -/
theorem claim_C1_never_throws (p : Provider) (fs : FsOracle) (net : FetchOracle)
    (env : CallEnv) (source : List Char) (opts : Option ExtractionOptions)
    (buffer : List Nat) (b64 fileName : List Char) :
    isTagged (OcrAI.extract p fs net env source opts).1 ∧
    isTagged (OcrAI.extractFromBuffer p env buffer fileName opts).1 ∧
    isTagged (OcrAI.extractFromBase64 p env b64 fileName opts).1 ∧
    (∀ e, (if isUrl source then loadFileFromUrl net source else loadFile fs source) =
        Except.error e →
      OcrAI.extract p fs net env source opts = (OcrAI.createErrorResult e, [])) ∧
    (∀ e, loadFileFromBuffer buffer fileName none = Except.error e →
      OcrAI.extractFromBuffer p env buffer fileName opts = (OcrAI.createErrorResult e, [])) ∧
    (∀ e, loadFileFromBase64 b64 fileName none = Except.error e →
      OcrAI.extractFromBase64 p env b64 fileName opts = (OcrAI.createErrorResult e, [])) ∧
    (∀ file e, p.supportsFileType file.type = true →
      (opts.bind ExtractionOptions.format).getD OutputFormat.text = OutputFormat.text →
      p.behavior.extractTextB file opts = Except.error e →
      (OcrAI.processExtraction p env file opts).1 = OcrAI.createErrorResult e) ∧
    (∀ file schema e, p.supportsFileType file.type = true →
      (opts.bind ExtractionOptions.format).getD OutputFormat.text = OutputFormat.json →
      opts.bind ExtractionOptions.schema = some schema →
      p.behavior.extractJsonB file schema opts = Except.error e →
      (OcrAI.processExtraction p env file opts).1 = OcrAI.createErrorResult e) ∧
    (∀ file pres path e, p.supportsFileType file.type = true →
      (opts.bind ExtractionOptions.format).getD OutputFormat.text = OutputFormat.text →
      p.behavior.extractTextB file opts = Except.ok pres →
      opts.bind ExtractionOptions.outputPath = some path →
      env.saveResult path = Except.error e →
      (OcrAI.processExtraction p env file opts).1 = OcrAI.createErrorResult e) := by
  refine ⟨isTagged_all _, isTagged_all _, isTagged_all _, ?_, ?_, ?_, ?_, ?_, ?_⟩
  · intro e he
    unfold OcrAI.extract
    simp only [he]
  · intro e he
    unfold OcrAI.extractFromBuffer
    simp only [he]
  · intro e he
    unfold OcrAI.extractFromBase64
    simp only [he]
  · intro file e hsup hfmt hcall
    unfold OcrAI.processExtraction OcrAI.processExtractionCore
    simp [hsup, hfmt, hcall]
  · intro file schema e hsup hfmt hsch hcall
    unfold OcrAI.processExtraction OcrAI.processExtractionCore
    simp [hsup, hfmt, hsch, hcall]
  · intro file pres path e hsup hfmt hcall hpath hsave
    unfold OcrAI.processExtraction OcrAI.processExtractionCore
    simp [hsup, hfmt, hcall, hpath, hsave]

/-- Witness for C1: a missing file makes the loader throw and `extract`
resolves with the normalized failure. -/
theorem claim_C1_witness :
    OcrAI.extract provGemini fsMissing netStub stubEnv ( "/tmp/absent.txt".toList) none =
      (OcrAI.createErrorResult (msgFileNotFound ++ "/tmp/absent.txt".toList), []) :=
  (claim_C1_never_throws provGemini fsMissing netStub stubEnv
    ( "/tmp/absent.txt".toList) none [] [] []).2.2.2.1
    (msgFileNotFound ++ "/tmp/absent.txt".toList) rfl

/-! ## Character and digit groundwork for the JSON round-trip -/

theorem char_eq_iff_toNat (c d : Char) : c = d ↔ c.toNat = d.toNat := by
  constructor
  · intro h; rw [h]
  · intro h
    exact Char.ext (UInt32.toNat.inj h)

theorem isDigit_iff_toNat (c : Char) :
    c.isDigit = true ↔ 48 ≤ c.toNat ∧ c.toNat ≤ 57 := by
  unfold Char.isDigit
  simp [UInt32.le_def, BitVec.le_def]
  constructor
  · intro ⟨h1, h2⟩
    exact ⟨h1, h2⟩
  · intro ⟨h1, h2⟩
    exact ⟨h1, h2⟩

theorem digitChar_spec (d : Nat) (h : d < 10) :
    (Nat.digitChar d).toNat = 48 + d ∧ (Nat.digitChar d).isDigit = true := by
  interval_cases d <;> exact ⟨by decide, by decide⟩

theorem hexVal_hexDigitChar (v : Nat) (h : v < 16) :
    hexVal (hexDigitChar v) = some v := by
  interval_cases v <;> decide

theorem printNatCore_append (n : Nat) : ∀ acc : List Char,
    printNatCore n acc = printNatCore n [] ++ acc := by
  induction n using Nat.strong_induction_on with
  | _ n ih =>
    intro acc
    unfold printNatCore
    by_cases h : n < 10
    · simp [h]
    · simp only [h, dite_false]
      rw [ih (n / 10) (Nat.div_lt_self (by omega) (by omega)),
          ih (n / 10) (Nat.div_lt_self (by omega) (by omega))
            [Nat.digitChar (n % 10)]]
      simp

theorem printNatCore_mem (n : Nat) : ∀ (acc : List Char) (c : Char),
    c ∈ printNatCore n acc → c.isDigit = true ∨ c ∈ acc := by
  induction n using Nat.strong_induction_on with
  | _ n ih =>
    intro acc c hc
    unfold printNatCore at hc
    by_cases h : n < 10
    · simp [h] at hc
      rcases hc with hc | hc
      · subst hc
        exact Or.inl (digitChar_spec (n % 10) (Nat.mod_lt n (by omega))).2
      · exact Or.inr hc
    · simp only [h, dite_false] at hc
      rcases ih (n / 10) (Nat.div_lt_self (by omega) (by omega)) _ c hc with hd | hd
      · exact Or.inl hd
      · simp at hd
        rcases hd with hd | hd
        · subst hd
          exact Or.inl (digitChar_spec (n % 10) (Nat.mod_lt n (by omega))).2
        · exact Or.inr hd

theorem printNat_all_digits (n : Nat) (c : Char) (hc : c ∈ printNat n) :
    c.isDigit = true := by
  rcases printNatCore_mem n [] c hc with h | h
  · exact h
  · simp at h

theorem printNat_ne_nil (n : Nat) : printNat n ≠ [] := by
  unfold printNat printNatCore
  by_cases h : n < 10
  · simp [h]
  · simp only [h, dite_false]
    rw [printNatCore_append]
    simp

theorem printNat_cons (n : Nat) :
    ∃ d t, printNat n = d :: t ∧ d.isDigit = true := by
  cases h : printNat n with
  | nil => exact absurd h (printNat_ne_nil n)
  | cons d t =>
    refine ⟨d, t, rfl, printNat_all_digits n d ?_⟩
    rw [h]
    simp

theorem digitsToNat_printNat (n : Nat) : digitsToNat (printNat n) = n := by
  induction n using Nat.strong_induction_on with
  | _ n ih =>
    unfold printNat printNatCore
    by_cases h : n < 10
    · simp only [h, dite_true]
      unfold digitsToNat
      simp [(digitChar_spec (n % 10) (Nat.mod_lt n (by omega))).1]
      omega
    · simp only [h, dite_false]
      rw [printNatCore_append]
      unfold digitsToNat
      rw [List.foldl_append]
      have hrec := ih (n / 10) (Nat.div_lt_self (by omega) (by omega))
      unfold digitsToNat at hrec
      unfold printNat at hrec
      rw [hrec]
      simp [(digitChar_spec (n % 10) (Nat.mod_lt n (by omega))).1]
      omega

theorem takeWhile_append_all {p : Char → Bool} : ∀ (l r : List Char),
    (∀ c ∈ l, p c = true) →
    (l ++ r).takeWhile p = l ++ r.takeWhile p ∧ (l ++ r).dropWhile p = r.dropWhile p := by
  intro l
  induction l with
  | nil => intro r h; simp
  | cons a t ih =>
    intro r h
    have ha : p a = true := h a (by simp)
    have ht := ih r (fun c hc => h c (by simp [hc]))
    simp [List.takeWhile, List.dropWhile, ha, ht.1, ht.2]

theorem takeWhile_nil_of_head {p : Char → Bool} (r : List Char)
    (h : ∀ c t, r = c :: t → p c = false) :
    r.takeWhile p = [] ∧ r.dropWhile p = r := by
  cases r with
  | nil => simp
  | cons c t => simp [List.takeWhile, List.dropWhile, h c t rfl]

theorem parseNumber_print (i : Int) (rest : List Char)
    (hnd : ∀ c t, rest = c :: t → c.isDigit = false) :
    parseNumber (printInt i ++ rest) = some (i, rest) := by
  have hrest := takeWhile_nil_of_head rest hnd
  unfold printInt
  by_cases hneg : i < 0
  · simp only [hneg, if_true]
    have hall : ∀ c ∈ printNat i.natAbs, Char.isDigit c = true :=
      fun c hc => printNat_all_digits _ c hc
    have hsplit := takeWhile_append_all (printNat i.natAbs) rest hall
    have h1 : (printNat i.natAbs ++ rest).takeWhile Char.isDigit = printNat i.natAbs := by
      rw [hsplit.1, hrest.1, List.append_nil]
    have h2 : (printNat i.natAbs ++ rest).dropWhile Char.isDigit = rest := by
      rw [hsplit.2, hrest.2]
    obtain ⟨d, t, hd, hdig⟩ := printNat_cons i.natAbs
    unfold parseNumber
    simp only [List.cons_append, if_pos trivial]
    simp only [h1, h2]
    rw [hd]
    simp only [← hd, digitsToNat_printNat]
    have hcast : -((i.natAbs : Int)) = i := by omega
    rw [hcast]
  · simp only [hneg, if_false]
    have hall : ∀ c ∈ printNat i.toNat, Char.isDigit c = true :=
      fun c hc => printNat_all_digits _ c hc
    have hsplit := takeWhile_append_all (printNat i.toNat) rest hall
    have h1 : (printNat i.toNat ++ rest).takeWhile Char.isDigit = printNat i.toNat := by
      rw [hsplit.1, hrest.1, List.append_nil]
    have h2 : (printNat i.toNat ++ rest).dropWhile Char.isDigit = rest := by
      rw [hsplit.2, hrest.2]
    obtain ⟨d, t, hd, hdig⟩ := printNat_cons i.toNat
    have hdm : ¬ (d = '-') := by
      have hb := (isDigit_iff_toNat d).1 hdig
      rw [char_eq_iff_toNat]
      intro hcon
      rw [hcon] at hb
      simp at hb
    rw [hd, List.cons_append] at h1 h2 ⊢
    unfold parseNumber
    simp only [hdm, if_false, h1, h2]
    rw [← hd, digitsToNat_printNat]
    have hcast : ((i.toNat : Int)) = i := by omega
    rw [hcast]

theorem psb_quote (rest : List Char) :
    parseStringBody (quoteChar :: rest) = some ([], rest) := by
  rw [parseStringBody.eq_def]
  simp

theorem psb_named (e u : Char) (rest : List Char) (he : ¬ e = 'u')
    (hu : unescapeNamed e = some u) :
    parseStringBody (backslashChar :: e :: rest) =
      match parseStringBody rest with
      | some (s, r) => some (u :: s, r)
      | none => none := by
  have h1 : ¬ (backslashChar = quoteChar) := by decide
  rw [parseStringBody.eq_def]
  simp [h1, he, hu]

theorem psb_unicode (h1 h2 h3 h4 : Char) (rest : List Char) (v1 v2 v3 v4 : Nat)
    (hv1 : hexVal h1 = some v1) (hv2 : hexVal h2 = some v2)
    (hv3 : hexVal h3 = some v3) (hv4 : hexVal h4 = some v4) :
    parseStringBody (backslashChar :: 'u' :: h1 :: h2 :: h3 :: h4 :: rest) =
      match parseStringBody rest with
      | some (s, r) => some (Char.ofNat (((v1 * 16 + v2) * 16 + v3) * 16 + v4) :: s, r)
      | none => none := by
  have hbq : ¬ (backslashChar = quoteChar) := by decide
  rw [parseStringBody.eq_def]
  simp [hbq, hv1, hv2, hv3, hv4]

theorem psb_plain (c : Char) (rest : List Char) (hq : ¬ c = quoteChar)
    (hb : ¬ c = backslashChar) (hc : ¬ c.toNat < 32) :
    parseStringBody (c :: rest) =
      match parseStringBody rest with
      | some (s, r) => some (c :: s, r)
      | none => none := by
  rw [parseStringBody.eq_def]
  simp [hq, hb, hc]

theorem parseStringBody_escape : ∀ (s rest : List Char),
    parseStringBody (escapeList s ++ quoteChar :: rest) = some (s, rest) := by
  intro s
  induction s with
  | nil =>
    intro rest
    have h : escapeList [] = [] := rfl
    rw [h, List.nil_append, psb_quote]
  | cons c s ih =>
    intro rest
    have hstep : escapeList (c :: s) = escapeChar c ++ escapeList s := rfl
    rw [hstep, List.append_assoc]
    by_cases hq : c = quoteChar
    · subst hq
      have hesc : escapeChar quoteChar = [backslashChar, quoteChar] := by decide
      rw [hesc]
      simp only [List.cons_append, List.nil_append]
      rw [psb_named quoteChar quoteChar _ (by decide) (by decide), ih rest]
    · by_cases hb : c = backslashChar
      · subst hb
        have hesc : escapeChar backslashChar = [backslashChar, backslashChar] := by decide
        rw [hesc]
        simp only [List.cons_append, List.nil_append]
        rw [psb_named backslashChar backslashChar _ (by decide) (by decide), ih rest]
      · by_cases h8 : c.toNat = 8
        · have hc : c = Char.ofNat 8 := by
            rw [char_eq_iff_toNat, h8]
            decide
          subst hc
          have hesc : escapeChar (Char.ofNat 8) = [backslashChar, 'b'] := by decide
          rw [hesc]
          simp only [List.cons_append, List.nil_append]
          rw [psb_named 'b' (Char.ofNat 8) _ (by decide) (by decide), ih rest]
        · by_cases h9 : c.toNat = 9
          · have hc : c = Char.ofNat 9 := by
              rw [char_eq_iff_toNat, h9]
              decide
            subst hc
            have hesc : escapeChar (Char.ofNat 9) = [backslashChar, 't'] := by decide
            rw [hesc]
            simp only [List.cons_append, List.nil_append]
            rw [psb_named 't' (Char.ofNat 9) _ (by decide) (by decide), ih rest]
          · by_cases h10 : c.toNat = 10
            · have hc : c = Char.ofNat 10 := by
                rw [char_eq_iff_toNat, h10]
                decide
              subst hc
              have hesc : escapeChar (Char.ofNat 10) = [backslashChar, 'n'] := by decide
              rw [hesc]
              simp only [List.cons_append, List.nil_append]
              rw [psb_named 'n' (Char.ofNat 10) _ (by decide) (by decide), ih rest]
            · by_cases h12 : c.toNat = 12
              · have hc : c = Char.ofNat 12 := by
                  rw [char_eq_iff_toNat, h12]
                  decide
                subst hc
                have hesc : escapeChar (Char.ofNat 12) = [backslashChar, 'f'] := by decide
                rw [hesc]
                simp only [List.cons_append, List.nil_append]
                rw [psb_named 'f' (Char.ofNat 12) _ (by decide) (by decide), ih rest]
              · by_cases h13 : c.toNat = 13
                · have hc : c = Char.ofNat 13 := by
                    rw [char_eq_iff_toNat, h13]
                    decide
                  subst hc
                  have hesc : escapeChar (Char.ofNat 13) = [backslashChar, 'r'] := by decide
                  rw [hesc]
                  simp only [List.cons_append, List.nil_append]
                  rw [psb_named 'r' (Char.ofNat 13) _ (by decide) (by decide), ih rest]
                · by_cases h32 : c.toNat < 32
                  · have hesc : escapeChar c =
                        [backslashChar, 'u', '0', '0', hexDigitChar (c.toNat / 16),
                         hexDigitChar (c.toNat % 16)] := by
                      unfold escapeChar
                      rw [if_neg hq, if_neg hb, if_neg h8, if_neg h9, if_neg h10,
                          if_neg h12, if_neg h13, if_pos h32]
                    rw [hesc]
                    simp only [List.cons_append, List.nil_append]
                    rw [psb_unicode '0' '0' (hexDigitChar (c.toNat / 16))
                        (hexDigitChar (c.toNat % 16)) _ 0 0 (c.toNat / 16) (c.toNat % 16)
                        (by decide) (by decide)
                        (hexVal_hexDigitChar _ (by omega))
                        (hexVal_hexDigitChar _ (Nat.mod_lt _ (by omega))),
                        ih rest]
                    have hval : ((0 * 16 + 0) * 16 + c.toNat / 16) * 16 + c.toNat % 16 =
                        c.toNat := by omega
                    rw [hval, Char.ofNat_toNat]
                  · have hesc : escapeChar c = [c] := by
                      unfold escapeChar
                      rw [if_neg hq, if_neg hb, if_neg h8, if_neg h9, if_neg h10,
                          if_neg h12, if_neg h13, if_neg h32]
                    rw [hesc]
                    simp only [List.cons_append, List.nil_append]
                    rw [psb_plain c _ hq hb h32, ih rest]

theorem skipWs_cons_of (c : Char) (l : List Char) (h : isJsonWs c = false) :
    skipWs (c :: l) = c :: l := by
  simp [skipWs, List.dropWhile, h]

theorem restOk_nodigit (rest : List Char) (h : restOk rest = true) :
    ∀ c t, rest = c :: t → c.isDigit = false := by
  intro c t hct
  subst hct
  simp [restOk] at h
  rcases h with (h | h) | h <;> subst h <;> decide

theorem digit_char_props (d : Char) (h : d.isDigit = true) :
    isJsonWs d = false ∧ isJsWsChar d = false ∧ ¬ d = backtickChar ∧
    ¬ d = rbrackChar ∧ ¬ d = rbraceChar ∧ ¬ d = ',' := by
  have hb := (isDigit_iff_toNat d).1 h
  have e1 : backtickChar.toNat = 96 := by decide
  have e2 : rbrackChar.toNat = 93 := by decide
  have e3 : rbraceChar.toNat = 125 := by decide
  have e4 : (',').toNat = 44 := by decide
  refine ⟨?_, ?_, ?_, ?_, ?_, ?_⟩
  · simp only [isJsonWs]
    simp only [Bool.or_eq_false_iff, decide_eq_false_iff_not]
    omega
  · simp only [isJsWsChar]
    simp only [Bool.or_eq_false_iff, decide_eq_false_iff_not]
    omega
  · rw [char_eq_iff_toNat]
    omega
  · rw [char_eq_iff_toNat]
    omega
  · rw [char_eq_iff_toNat]
    omega
  · rw [char_eq_iff_toNat]
    omega

theorem printInt_head (i : Int) :
    ∃ c t, printInt i = c :: t ∧ ¬ c = 'n' ∧ ¬ c = 't' ∧ ¬ c = 'f' ∧
      ¬ c = quoteChar ∧ ¬ c = lbrackChar ∧ ¬ c = lbraceChar ∧
      isJsonWs c = false ∧ isJsWsChar c = false ∧ ¬ c = backtickChar ∧
      ¬ c = rbrackChar ∧ ¬ c = rbraceChar ∧ ¬ c = ',' := by
  unfold printInt
  by_cases h : i < 0
  · simp only [h, if_true]
    exact ⟨'-', printNat i.natAbs, rfl, by decide⟩
  · simp only [h, if_false]
    obtain ⟨d, t, hd, hdig⟩ := printNat_cons i.toNat
    have hb := (isDigit_iff_toNat d).1 hdig
    obtain ⟨p1, p2, p3, p4, p5, p6⟩ := digit_char_props d hdig
    have e1 : ('n').toNat = 110 := by decide
    have e2 : ('t').toNat = 116 := by decide
    have e3 : ('f').toNat = 102 := by decide
    have e4 : quoteChar.toNat = 34 := by decide
    have e5 : lbrackChar.toNat = 91 := by decide
    have e6 : lbraceChar.toNat = 123 := by decide
    refine ⟨d, t, hd, ?_, ?_, ?_, ?_, ?_, ?_, p1, p2, p3, p4, p5, p6⟩ <;>
      (rw [char_eq_iff_toNat]; omega)

theorem serialize_head (v : Json) :
    ∃ c t, serialize v = c :: t ∧ isJsonWs c = false ∧ isJsWsChar c = false ∧
      ¬ c = backtickChar ∧ ¬ c = rbrackChar ∧ ¬ c = rbraceChar ∧ ¬ c = ',' := by
  cases v with
  | null => exact ⟨'n', "ull".toList, by decide⟩
  | bool b =>
    cases b
    · exact ⟨'f', "alse".toList, by decide⟩
    · exact ⟨'t', "rue".toList, by decide⟩
  | num i =>
    obtain ⟨c, t, hct, _, _, _, _, _, _, q1, q2, q3, q4, q5, q6⟩ := printInt_head i
    exact ⟨c, t, hct, q1, q2, q3, q4, q5, q6⟩
  | str s =>
    exact ⟨quoteChar, escapeList s ++ [quoteChar], rfl, by decide⟩
  | arr xs =>
    exact ⟨lbrackChar, serializeElems xs ++ [rbrackChar], rfl, by decide⟩
  | obj fs =>
    exact ⟨lbraceChar, serializeFields fs ++ [rbraceChar], rfl, by decide⟩

theorem printNat_rev_cons (n : Nat) :
    ∃ d t, (printNat n).reverse = d :: t ∧ d.isDigit = true := by
  cases hr : (printNat n).reverse with
  | nil =>
    rw [List.reverse_eq_nil_iff] at hr
    exact absurd hr (printNat_ne_nil n)
  | cons d t =>
    refine ⟨d, t, rfl, printNat_all_digits n d ?_⟩
    have hm : d ∈ (printNat n).reverse := by
      rw [hr]
      simp
    simpa using hm

theorem serialize_rev_head (v : Json) :
    ∃ c t, (serialize v).reverse = c :: t ∧ isJsWsChar c = false ∧ ¬ c = backtickChar := by
  cases v with
  | null => exact ⟨'l', ['l', 'u', 'n'], by decide⟩
  | bool b =>
    cases b
    · exact ⟨'e', ['s', 'l', 'a', 'f'], by decide⟩
    · exact ⟨'e', ['u', 'r', 't'], by decide⟩
  | num i =>
    show ∃ c t, (printInt i).reverse = c :: t ∧ isJsWsChar c = false ∧ ¬ c = backtickChar
    unfold printInt
    by_cases h : i < 0
    · simp only [h, if_true]
      obtain ⟨d, t, hd, hdig⟩ := printNat_rev_cons i.natAbs
      obtain ⟨_, p2, p3, _, _, _⟩ := digit_char_props d hdig
      refine ⟨d, t ++ ['-'], ?_, p2, p3⟩
      rw [List.reverse_cons, hd]
      simp
    · simp only [h, if_false]
      obtain ⟨d, t, hd, hdig⟩ := printNat_rev_cons i.toNat
      obtain ⟨_, p2, p3, _, _, _⟩ := digit_char_props d hdig
      exact ⟨d, t, hd, p2, p3⟩
  | str s =>
    refine ⟨quoteChar, (escapeList s).reverse ++ [quoteChar], ?_, by decide, by decide⟩
    show (quoteChar :: (escapeList s ++ [quoteChar])).reverse =
      quoteChar :: ((escapeList s).reverse ++ [quoteChar])
    simp
  | arr xs =>
    refine ⟨rbrackChar, (serializeElems xs).reverse ++ [lbrackChar], ?_, by decide, by decide⟩
    show (lbrackChar :: (serializeElems xs ++ [rbrackChar])).reverse =
      rbrackChar :: ((serializeElems xs).reverse ++ [lbrackChar])
    simp
  | obj fs =>
    refine ⟨rbraceChar, (serializeFields fs).reverse ++ [lbraceChar], ?_, by decide, by decide⟩
    show (lbraceChar :: (serializeFields fs ++ [rbraceChar])).reverse =
      rbraceChar :: ((serializeFields fs).reverse ++ [lbraceChar])
    simp

theorem jsize_pos (v : Json) : 1 ≤ jsize v := by
  cases v <;> simp [jsize]

mutual

theorem parse_print (v : Json) (rest : List Char) (fuel : Nat)
    (hf : jsize v ≤ fuel) (hrest : restOk rest = true) :
    parseValue fuel (serialize v ++ rest) = some (v, rest) := by
  obtain ⟨f, rfl⟩ : ∃ f, fuel = f + 1 := by
    have := jsize_pos v
    cases fuel with
    | zero => omega
    | succ f => exact ⟨f, rfl⟩
  cases v with
  | null =>
    show parseValue (f + 1) ('n' :: 'u' :: 'l' :: 'l' :: rest) = some (Json.null, rest)
    rw [parseValue.eq_def]
    simp
  | bool b =>
    cases b
    · show parseValue (f + 1) ('f' :: 'a' :: 'l' :: 's' :: 'e' :: rest) =
        some (Json.bool false, rest)
      rw [parseValue.eq_def]
      simp
    · show parseValue (f + 1) ('t' :: 'r' :: 'u' :: 'e' :: rest) =
        some (Json.bool true, rest)
      rw [parseValue.eq_def]
      simp
  | num i =>
    obtain ⟨c, t, hct, n1, n2, n3, n4, n5, n6, _, _, _, _, _, _⟩ := printInt_head i
    have hpn := parseNumber_print i rest (restOk_nodigit rest hrest)
    rw [hct, List.cons_append] at hpn
    show parseValue (f + 1) (printInt i ++ rest) = some (Json.num i, rest)
    rw [hct, List.cons_append, parseValue.eq_def]
    simp only [n1, n2, n3, n4, n5, n6, if_neg, if_false, hpn]
  | str s =>
    show parseValue (f + 1) ((quoteChar :: (escapeList s ++ [quoteChar])) ++ rest) =
      some (Json.str s, rest)
    rw [parseValue.eq_def]
    have hq : (escapeList s ++ [quoteChar]) ++ rest = escapeList s ++ quoteChar :: rest := by
      simp
    simp only [List.cons_append, hq]
    have hne1 : ¬ (quoteChar = 'n') := by decide
    have hne2 : ¬ (quoteChar = 't') := by decide
    have hne3 : ¬ (quoteChar = 'f') := by decide
    simp [hne1, hne2, hne3, parseStringBody_escape s rest]
  | arr xs =>
    show parseValue (f + 1) ((lbrackChar :: (serializeElems xs ++ [rbrackChar])) ++ rest) =
      some (Json.arr xs, rest)
    rw [parseValue.eq_def]
    have hb1 : ¬ (lbrackChar = 'n') := by decide
    have hb2 : ¬ (lbrackChar = 't') := by decide
    have hb3 : ¬ (lbrackChar = 'f') := by decide
    have hb4 : ¬ (lbrackChar = quoteChar) := by decide
    cases xs with
    | nil =>
      have hshape : (serializeElems ([] : List Json) ++ [rbrackChar]) ++ rest =
          rbrackChar :: rest := by
        show ([] ++ [rbrackChar]) ++ rest = rbrackChar :: rest
        simp
      simp only [List.cons_append, hshape]
      have hws : skipWs (rbrackChar :: rest) = rbrackChar :: rest :=
        skipWs_cons_of _ _ (by decide)
      simp [hb1, hb2, hb3, hb4, hws]
    | cons x xs =>
      obtain ⟨c, t, hct, q1, _, _, q4, _, _⟩ := serialize_head x
      have hu : ∃ u, serializeElems (x :: xs) = c :: u := by
        cases xs with
        | nil => exact ⟨t, hct⟩
        | cons y ys =>
          refine ⟨t ++ ',' :: serializeElems (y :: ys), ?_⟩
          show serialize x ++ ',' :: serializeElems (y :: ys) = c :: (t ++ ',' :: serializeElems (y :: ys))
          rw [hct]
          simp
      obtain ⟨u, hu⟩ := hu
      have hshape : (serializeElems (x :: xs) ++ [rbrackChar]) ++ rest =
          c :: (u ++ rbrackChar :: rest) := by
        rw [hu]
        simp
      have hsw : skipWs (c :: (u ++ rbrackChar :: rest)) = c :: (u ++ rbrackChar :: rest) :=
        skipWs_cons_of _ _ q1
      have hsz : elemsSize (x :: xs) ≤ f := by
        simp [jsize] at hf
        omega
      have hpe : parseElems f (c :: (u ++ rbrackChar :: rest)) = some (x :: xs, rest) := by
        rw [show c :: (u ++ rbrackChar :: rest) = serializeElems (x :: xs) ++ rbrackChar :: rest from by rw [hu]; simp]
        exact parse_elems_print (x :: xs) rest f (by simp) hsz
      simp only [List.cons_append, hshape]
      simp [hb1, hb2, hb3, hb4, hsw, q4, hpe]
  | obj fs =>
    show parseValue (f + 1) ((lbraceChar :: (serializeFields fs ++ [rbraceChar])) ++ rest) =
      some (Json.obj fs, rest)
    rw [parseValue.eq_def]
    have hc1 : ¬ (lbraceChar = 'n') := by decide
    have hc2 : ¬ (lbraceChar = 't') := by decide
    have hc3 : ¬ (lbraceChar = 'f') := by decide
    have hc4 : ¬ (lbraceChar = quoteChar) := by decide
    have hc5 : ¬ (lbraceChar = lbrackChar) := by decide
    cases fs with
    | nil =>
      have hshape : (serializeFields ([] : List (List Char × Json)) ++ [rbraceChar]) ++ rest =
          rbraceChar :: rest := by
        show ([] ++ [rbraceChar]) ++ rest = rbraceChar :: rest
        simp
      simp only [List.cons_append, hshape]
      have hws : skipWs (rbraceChar :: rest) = rbraceChar :: rest :=
        skipWs_cons_of _ _ (by decide)
      simp [hc1, hc2, hc3, hc4, hc5, hws]
    | cons kv fs =>
      obtain ⟨k, v⟩ := kv
      have hu : ∃ u, serializeFields ((k, v) :: fs) = quoteChar :: u := by
        cases fs with
        | nil =>
          refine ⟨(escapeList k ++ [quoteChar]) ++ ':' :: serialize v, ?_⟩
          show serializeString k ++ ':' :: serialize v = quoteChar :: ((escapeList k ++ [quoteChar]) ++ ':' :: serialize v)
          show (quoteChar :: (escapeList k ++ [quoteChar])) ++ ':' :: serialize v = quoteChar :: ((escapeList k ++ [quoteChar]) ++ ':' :: serialize v)
          simp
        | cons g gs =>
          refine ⟨(escapeList k ++ [quoteChar]) ++ ':' :: serialize v ++ ',' :: serializeFields (g :: gs), ?_⟩
          show serializeString k ++ ':' :: serialize v ++ ',' :: serializeFields (g :: gs) = _
          show (quoteChar :: (escapeList k ++ [quoteChar])) ++ ':' :: serialize v ++ ',' :: serializeFields (g :: gs) = _
          simp
      obtain ⟨u, hu⟩ := hu
      have hshape : (serializeFields ((k, v) :: fs) ++ [rbraceChar]) ++ rest =
          quoteChar :: (u ++ rbraceChar :: rest) := by
        rw [hu]
        simp
      have hsw : skipWs (quoteChar :: (u ++ rbraceChar :: rest)) =
          quoteChar :: (u ++ rbraceChar :: rest) :=
        skipWs_cons_of _ _ (by decide)
      have hsz : fieldsSize ((k, v) :: fs) ≤ f := by
        simp [jsize] at hf
        omega
      have hpf : parseFields f (quoteChar :: (u ++ rbraceChar :: rest)) =
          some ((k, v) :: fs, rest) := by
        rw [show quoteChar :: (u ++ rbraceChar :: rest) = serializeFields ((k, v) :: fs) ++ rbraceChar :: rest from by rw [hu]; simp]
        exact parse_fields_print ((k, v) :: fs) rest f (by simp) hsz
      simp only [List.cons_append, hshape]
      have hq5 : ¬ (quoteChar = rbraceChar) := by decide
      simp [hc1, hc2, hc3, hc4, hc5, hsw, hq5, hpf]

theorem parse_elems_print (xs : List Json) (rest : List Char) (fuel : Nat)
    (hne : xs ≠ []) (hf : elemsSize xs ≤ fuel) :
    parseElems fuel (serializeElems xs ++ rbrackChar :: rest) = some (xs, rest) := by
  cases xs with
  | nil => exact absurd rfl hne
  | cons x xs =>
    obtain ⟨f, rfl⟩ : ∃ f, fuel = f + 1 := by
      simp [elemsSize] at hf
      cases fuel with
      | zero => omega
      | succ f => exact ⟨f, rfl⟩
    have hsz : jsize x ≤ f ∧ elemsSize xs ≤ f := by
      simp [elemsSize] at hf
      omega
    rw [parseElems.eq_def]
    obtain ⟨c, t, hct, q1, _, _, _, _, _⟩ := serialize_head x
    cases xs with
    | nil =>
      have hs : serializeElems [x] ++ rbrackChar :: rest = c :: (t ++ rbrackChar :: rest) := by
        show serialize x ++ rbrackChar :: rest = c :: (t ++ rbrackChar :: rest)
        rw [hct]
        simp
      have hsw : skipWs (c :: (t ++ rbrackChar :: rest)) = c :: (t ++ rbrackChar :: rest) :=
        skipWs_cons_of _ _ q1
      have hpv : parseValue f (c :: (t ++ rbrackChar :: rest)) = some (x, rbrackChar :: rest) := by
        rw [show c :: (t ++ rbrackChar :: rest) = serialize x ++ rbrackChar :: rest from by rw [hct]; simp]
        exact parse_print x (rbrackChar :: rest) f hsz.1 (by simp [restOk])
      have hsw2 : skipWs (rbrackChar :: rest) = rbrackChar :: rest :=
        skipWs_cons_of _ _ (by decide)
      have hr1 : ¬ (rbrackChar = ',') := by decide
      simp [hs, hsw, hpv, hsw2, hr1]
    | cons y ys =>
      have hs : serializeElems (x :: y :: ys) ++ rbrackChar :: rest =
          c :: (t ++ ',' :: (serializeElems (y :: ys) ++ rbrackChar :: rest)) := by
        show (serialize x ++ ',' :: serializeElems (y :: ys)) ++ rbrackChar :: rest = _
        rw [hct]
        simp
      have hsw : skipWs (c :: (t ++ ',' :: (serializeElems (y :: ys) ++ rbrackChar :: rest))) =
          c :: (t ++ ',' :: (serializeElems (y :: ys) ++ rbrackChar :: rest)) :=
        skipWs_cons_of _ _ q1
      have hpv : parseValue f (c :: (t ++ ',' :: (serializeElems (y :: ys) ++ rbrackChar :: rest))) =
          some (x, ',' :: (serializeElems (y :: ys) ++ rbrackChar :: rest)) := by
        rw [show c :: (t ++ ',' :: (serializeElems (y :: ys) ++ rbrackChar :: rest)) =
            serialize x ++ ',' :: (serializeElems (y :: ys) ++ rbrackChar :: rest) from by rw [hct]; simp]
        exact parse_print x _ f hsz.1 (by simp [restOk])
      have hsw2 : skipWs (',' :: (serializeElems (y :: ys) ++ rbrackChar :: rest)) =
          ',' :: (serializeElems (y :: ys) ++ rbrackChar :: rest) :=
        skipWs_cons_of _ _ (by decide)
      have hrec : parseElems f (serializeElems (y :: ys) ++ rbrackChar :: rest) =
          some (y :: ys, rest) :=
        parse_elems_print (y :: ys) rest f (by simp) hsz.2
      simp [hs, hsw, hpv, hsw2, hrec]

theorem parse_fields_print (fs : List (List Char × Json)) (rest : List Char) (fuel : Nat)
    (hne : fs ≠ []) (hf : fieldsSize fs ≤ fuel) :
    parseFields fuel (serializeFields fs ++ rbraceChar :: rest) = some (fs, rest) := by
  cases fs with
  | nil => exact absurd rfl hne
  | cons kv fs =>
    obtain ⟨k, v⟩ := kv
    obtain ⟨f, rfl⟩ : ∃ f, fuel = f + 1 := by
      simp [fieldsSize] at hf
      cases fuel with
      | zero => omega
      | succ f => exact ⟨f, rfl⟩
    have hsz : jsize v ≤ f ∧ fieldsSize fs ≤ f := by
      simp [fieldsSize] at hf
      omega
    rw [parseFields.eq_def]
    obtain ⟨c, t, hct, q1, _, _, _, _, _⟩ := serialize_head v
    cases fs with
    | nil =>
      have hs : serializeFields [(k, v)] ++ rbraceChar :: rest =
          quoteChar :: (escapeList k ++ quoteChar :: (':' :: (serialize v ++ rbraceChar :: rest))) := by
        show (serializeString k ++ ':' :: serialize v) ++ rbraceChar :: rest = _
        show ((quoteChar :: (escapeList k ++ [quoteChar])) ++ ':' :: serialize v) ++ rbraceChar :: rest = _
        simp
      have hsw0 : skipWs (quoteChar :: (escapeList k ++ quoteChar ::
          (':' :: (serialize v ++ rbraceChar :: rest)))) =
          quoteChar :: (escapeList k ++ quoteChar :: (':' :: (serialize v ++ rbraceChar :: rest))) :=
        skipWs_cons_of _ _ (by decide)
      have hpsb := parseStringBody_escape k (':' :: (serialize v ++ rbraceChar :: rest))
      have hsw1 : skipWs (':' :: (serialize v ++ rbraceChar :: rest)) =
          ':' :: (serialize v ++ rbraceChar :: rest) :=
        skipWs_cons_of _ _ (by decide)
      have hsw2 : skipWs (serialize v ++ rbraceChar :: rest) =
          serialize v ++ rbraceChar :: rest := by
        rw [hct, List.cons_append]
        exact skipWs_cons_of _ _ q1
      have hpv : parseValue f (serialize v ++ rbraceChar :: rest) =
          some (v, rbraceChar :: rest) :=
        parse_print v (rbraceChar :: rest) f hsz.1 (by simp [restOk])
      have hsw3 : skipWs (rbraceChar :: rest) = rbraceChar :: rest :=
        skipWs_cons_of _ _ (by decide)
      have hr1 : ¬ (rbraceChar = ',') := by decide
      simp [hs, hsw0, hpsb, hsw1, hsw2, hpv, hsw3, hr1]
    | cons g gs =>
      have hs : serializeFields ((k, v) :: g :: gs) ++ rbraceChar :: rest =
          quoteChar :: (escapeList k ++ quoteChar :: (':' :: (serialize v ++
            ',' :: (serializeFields (g :: gs) ++ rbraceChar :: rest)))) := by
        show (serializeString k ++ ':' :: serialize v ++ ',' :: serializeFields (g :: gs)) ++ rbraceChar :: rest = _
        show ((quoteChar :: (escapeList k ++ [quoteChar])) ++ ':' :: serialize v ++ ',' :: serializeFields (g :: gs)) ++ rbraceChar :: rest = _
        simp
      have hsw0 : skipWs (quoteChar :: (escapeList k ++ quoteChar :: (':' :: (serialize v ++
          ',' :: (serializeFields (g :: gs) ++ rbraceChar :: rest))))) =
          quoteChar :: (escapeList k ++ quoteChar :: (':' :: (serialize v ++
            ',' :: (serializeFields (g :: gs) ++ rbraceChar :: rest)))) :=
        skipWs_cons_of _ _ (by decide)
      have hpsb := parseStringBody_escape k (':' :: (serialize v ++
        ',' :: (serializeFields (g :: gs) ++ rbraceChar :: rest)))
      have hsw1 : skipWs (':' :: (serialize v ++ ',' :: (serializeFields (g :: gs) ++
          rbraceChar :: rest))) = ':' :: (serialize v ++ ',' :: (serializeFields (g :: gs) ++
          rbraceChar :: rest)) :=
        skipWs_cons_of _ _ (by decide)
      have hsw2 : skipWs (serialize v ++ ',' :: (serializeFields (g :: gs) ++
          rbraceChar :: rest)) = serialize v ++ ',' :: (serializeFields (g :: gs) ++
          rbraceChar :: rest) := by
        rw [hct, List.cons_append]
        exact skipWs_cons_of _ _ q1
      have hpv : parseValue f (serialize v ++ ',' :: (serializeFields (g :: gs) ++
          rbraceChar :: rest)) = some (v, ',' :: (serializeFields (g :: gs) ++
          rbraceChar :: rest)) :=
        parse_print v _ f hsz.1 (by simp [restOk])
      have hsw3 : skipWs (',' :: (serializeFields (g :: gs) ++ rbraceChar :: rest)) =
          ',' :: (serializeFields (g :: gs) ++ rbraceChar :: rest) :=
        skipWs_cons_of _ _ (by decide)
      have hrec : parseFields f (serializeFields (g :: gs) ++ rbraceChar :: rest) =
          some (g :: gs, rest) :=
        parse_fields_print (g :: gs) rest f (by simp) hsz.2
      simp [hs, hsw0, hpsb, hsw1, hsw2, hpv, hsw3, hrec]

end

mutual

theorem jsize_le_len (v : Json) : jsize v ≤ (serialize v).length := by
  cases v with
  | null => simp [jsize, serialize]
  | bool b => cases b <;> simp [jsize, serialize]
  | num i =>
    obtain ⟨c, t, hct, _⟩ := printInt_head i
    show jsize (Json.num i) ≤ (printInt i).length
    rw [hct]
    simp [jsize]
  | str s =>
    show jsize (Json.str s) ≤ (quoteChar :: (escapeList s ++ [quoteChar])).length
    simp [jsize]
  | arr xs =>
    have h := elemsSize_le_len xs
    show jsize (Json.arr xs) ≤ (lbrackChar :: (serializeElems xs ++ [rbrackChar])).length
    simp [jsize]
    omega
  | obj fs =>
    have h := fieldsSize_le_len fs
    show jsize (Json.obj fs) ≤ (lbraceChar :: (serializeFields fs ++ [rbraceChar])).length
    simp [jsize]
    omega

theorem elemsSize_le_len (xs : List Json) :
    elemsSize xs ≤ (serializeElems xs).length + 1 := by
  cases xs with
  | nil => simp [elemsSize, serializeElems]
  | cons x xs =>
    have hx := jsize_le_len x
    cases xs with
    | nil =>
      show elemsSize [x] ≤ (serialize x).length + 1
      simp [elemsSize, elemsSize.eq_1]
      omega
    | cons y ys =>
      have hr := elemsSize_le_len (y :: ys)
      show elemsSize (x :: y :: ys) ≤ (serialize x ++ ',' :: serializeElems (y :: ys)).length + 1
      rw [show elemsSize (x :: y :: ys) = 1 + jsize x + elemsSize (y :: ys) from rfl]
      simp only [List.length_append, List.length_cons]
      omega

theorem fieldsSize_le_len (fs : List (List Char × Json)) :
    fieldsSize fs ≤ (serializeFields fs).length + 1 := by
  cases fs with
  | nil => simp [fieldsSize, serializeFields]
  | cons kv fs =>
    obtain ⟨k, v⟩ := kv
    have hv := jsize_le_len v
    cases fs with
    | nil =>
      show fieldsSize [(k, v)] ≤ (serializeString k ++ ':' :: serialize v).length + 1
      simp [fieldsSize]
      omega
    | cons g gs =>
      have hr := fieldsSize_le_len (g :: gs)
      show fieldsSize ((k, v) :: g :: gs) ≤
        (serializeString k ++ ':' :: serialize v ++ ',' :: serializeFields (g :: gs)).length + 1
      rw [show fieldsSize ((k, v) :: g :: gs) = 1 + jsize v + fieldsSize (g :: gs) from rfl]
      simp only [List.length_append, List.length_cons]
      omega

end

theorem jsonParse_serialize (v : Json) : jsonParse (serialize v) = some v := by
  obtain ⟨c, t, hct, q1, _⟩ := serialize_head v
  have hsw : skipWs (serialize v) = serialize v := by
    rw [hct]
    exact skipWs_cons_of _ _ q1
  have hfuel : jsize v ≤ (serialize v).length + 1 := by
    have := jsize_le_len v
    omega
  have hpv : parseValue ((serialize v).length + 1) (serialize v ++ []) = some (v, []) :=
    parse_print v [] ((serialize v).length + 1) hfuel rfl
  rw [List.append_nil] at hpv
  unfold jsonParse
  rw [hsw, hpv]
  rfl

theorem dropWhile_cons_false (p : Char → Bool) (c : Char) (l : List Char)
    (h : p c = false) : (c :: l).dropWhile p = c :: l := by
  simp [List.dropWhile, h]

theorem trimList_eq_self (s : List Char)
    (hhead : ∃ c t, s = c :: t ∧ isJsWsChar c = false)
    (hrev : ∃ d u, s.reverse = d :: u ∧ isJsWsChar d = false) :
    trimList s = s := by
  obtain ⟨c, t, hct, hc⟩ := hhead
  obtain ⟨d, u, hdu, hd⟩ := hrev
  unfold trimList
  rw [hct, dropWhile_cons_false _ _ _ hc, ← hct, hdu, dropWhile_cons_false _ _ _ hd, ← hdu,
      List.reverse_reverse]

theorem trim_wrap (S : List Char)
    (hhead : ∃ c t, S = c :: t ∧ isJsWsChar c = false)
    (hrev : ∃ d u, S.reverse = d :: u ∧ isJsWsChar d = false) :
    trimList (Char.ofNat 10 :: (S ++ [Char.ofNat 10])) = S := by
  obtain ⟨c, t, hct, hc⟩ := hhead
  obtain ⟨d, u, hdu, hd⟩ := hrev
  unfold trimList
  have hnl : isJsWsChar (Char.ofNat 10) = true := by decide
  have h1 : (Char.ofNat 10 :: (S ++ [Char.ofNat 10])).dropWhile isJsWsChar =
      (S ++ [Char.ofNat 10]).dropWhile isJsWsChar := by
    simp [List.dropWhile, hnl]
  have h2 : (S ++ [Char.ofNat 10]).dropWhile isJsWsChar = S ++ [Char.ofNat 10] := by
    rw [hct, List.cons_append]
    exact dropWhile_cons_false _ _ _ hc
  have h3 : (S ++ [Char.ofNat 10]).reverse = Char.ofNat 10 :: S.reverse := by
    simp
  have h4 : (Char.ofNat 10 :: S.reverse).dropWhile isJsWsChar = S.reverse.dropWhile isJsWsChar := by
    simp [List.dropWhile, hnl]
  have h5 : S.reverse.dropWhile isJsWsChar = S.reverse := by
    rw [hdu]
    exact dropWhile_cons_false _ _ _ hd
  rw [h1, h2, h3, h4, h5, List.reverse_reverse]

theorem isPrefixOf_append_self (p t : List Char) : p.isPrefixOf (p ++ t) = true := by
  induction p with
  | nil => simp [List.isPrefixOf]
  | cons a q ih => simp [List.isPrefixOf, ih]

theorem isPrefixOf_ne_head (a b : Char) (p t : List Char) (h : ¬ b = a) :
    (a :: p).isPrefixOf (b :: t) = false := by
  simp [List.isPrefixOf]
  intro hc
  exact absurd hc.symm h

theorem startsWithL_self_append (p t : List Char) : startsWithL p (p ++ t) = true :=
  isPrefixOf_append_self p t

theorem endsWithL_self_append (p a : List Char) : endsWithL p (a ++ p) = true := by
  unfold endsWithL
  rw [List.reverse_append]
  exact isPrefixOf_append_self p.reverse a.reverse

theorem startsWithL_fenceJson_false (s : List Char)
    (h : ∃ c t, s = c :: t ∧ ¬ c = backtickChar) : startsWithL fenceJson s = false := by
  obtain ⟨c, t, hct, hc⟩ := h
  rw [hct]
  show (backtickChar :: (backtickChar :: backtickChar :: ['j', 's', 'o', 'n'])).isPrefixOf
    (c :: t) = false
  exact isPrefixOf_ne_head _ _ _ _ hc

theorem startsWithL_fence3_false (s : List Char)
    (h : ∃ c t, s = c :: t ∧ ¬ c = backtickChar) : startsWithL fence3 s = false := by
  obtain ⟨c, t, hct, hc⟩ := h
  rw [hct]
  show (backtickChar :: (backtickChar :: [backtickChar])).isPrefixOf (c :: t) = false
  exact isPrefixOf_ne_head _ _ _ _ hc

theorem endsWithL_fence3_false (s : List Char)
    (h : ∃ c t, s.reverse = c :: t ∧ ¬ c = backtickChar) : endsWithL fence3 s = false := by
  obtain ⟨c, t, hct, hc⟩ := h
  unfold endsWithL
  rw [hct]
  show (backtickChar :: (backtickChar :: [backtickChar])).isPrefixOf (c :: t) = false
  exact isPrefixOf_ne_head _ _ _ _ hc

theorem stripFences_plain (v : Json) : stripFences (serialize v) = serialize v := by
  obtain ⟨c, t, hct, _, q2, q3, _, _, _⟩ := serialize_head v
  obtain ⟨d, u, hdu, r2, r3⟩ := serialize_rev_head v
  have htrim : trimList (serialize v) = serialize v :=
    trimList_eq_self _ ⟨c, t, hct, q2⟩ ⟨d, u, hdu, r2⟩
  have hs1 : startsWithL fenceJson (serialize v) = false :=
    startsWithL_fenceJson_false _ ⟨c, t, hct, q3⟩
  have hs2 : startsWithL fence3 (serialize v) = false :=
    startsWithL_fence3_false _ ⟨c, t, hct, q3⟩
  have he : endsWithL fence3 (serialize v) = false :=
    endsWithL_fence3_false _ ⟨d, u, hdu, r3⟩
  unfold stripFences
  rw [htrim]
  simp only [hs1, hs2, he, if_false, Bool.false_eq_true]
  exact htrim

theorem stripFences_fenced (v : Json) :
    stripFences (fenceJson ++ Char.ofNat 10 :: (serialize v ++ Char.ofNat 10 :: fence3)) =
      serialize v := by
  obtain ⟨c, t, hct, _, q2, _, _, _, _⟩ := serialize_head v
  obtain ⟨d, u, hdu, r2, _⟩ := serialize_rev_head v
  set I := fenceJson ++ Char.ofNat 10 :: (serialize v ++ Char.ofNat 10 :: fence3) with hI
  have hIshape : I = fenceJson ++ Char.ofNat 10 :: (serialize v ++ Char.ofNat 10 :: fence3) := hI
  have hIsuffix : I = (fenceJson ++ Char.ofNat 10 :: (serialize v ++ [Char.ofNat 10])) ++ fence3 := by
    rw [hI]
    simp
  have htrim : trimList I = I := by
    apply trimList_eq_self
    · exact ⟨backtickChar, _, by rw [hI]; rfl, by decide⟩
    · refine ⟨backtickChar, (fence3.take 2).reverse ++
        (fenceJson ++ Char.ofNat 10 :: (serialize v ++ [Char.ofNat 10])).reverse, ?_, by decide⟩
      rw [hIsuffix, List.reverse_append]
      rfl
  have hstart : startsWithL fenceJson I = true := by
    rw [hI]
    exact startsWithL_self_append _ _
  have hdrop : I.drop 7 = Char.ofNat 10 :: (serialize v ++ Char.ofNat 10 :: fence3) := by
    rw [hI]
    have hlen : fenceJson.length = 7 := rfl
    rw [← hlen, List.drop_left]
  have hT : Char.ofNat 10 :: (serialize v ++ Char.ofNat 10 :: fence3) =
      (Char.ofNat 10 :: (serialize v ++ [Char.ofNat 10])) ++ fence3 := by
    simp
  have hend : endsWithL fence3 (Char.ofNat 10 :: (serialize v ++ Char.ofNat 10 :: fence3)) = true := by
    rw [hT]
    exact endsWithL_self_append _ _
  have htake : (Char.ofNat 10 :: (serialize v ++ Char.ofNat 10 :: fence3)).take
      ((Char.ofNat 10 :: (serialize v ++ Char.ofNat 10 :: fence3)).length - 3) =
      Char.ofNat 10 :: (serialize v ++ [Char.ofNat 10]) := by
    rw [hT]
    have hlen : ((Char.ofNat 10 :: (serialize v ++ [Char.ofNat 10])) ++ fence3).length - 3 =
        (Char.ofNat 10 :: (serialize v ++ [Char.ofNat 10])).length := by
      simp [fence3]
    rw [hlen]
    exact List.take_left _ _
  have hwrap : trimList (Char.ofNat 10 :: (serialize v ++ [Char.ofNat 10])) = serialize v :=
    trim_wrap _ ⟨c, t, hct, q2⟩ ⟨d, u, hdu, r2⟩
  unfold stripFences
  rw [htrim]
  simp only [hstart, if_true, hdrop, hend, htake]
  exact hwrap

/-! ## C6: JSON recovery round-trip -/

/-- C6: for every JSON value, serializing it compactly, optionally wrapping
it in a ```` ```json ```` fence, and feeding it through
`parseJsonResponse` reproduces the value exactly — both the fenced and the
unfenced form parse back to the same value. -/
theorem claim_C6_roundtrip (v : Json) :
    BaseProvider.parseJsonResponse
        ( "```json".toList ++ Char.ofNat 10 :: (serialize v ++ Char.ofNat 10 :: "```".toList)) =
      Except.ok v ∧
    BaseProvider.parseJsonResponse (serialize v) = Except.ok v := by
  have hfj : ( "```json".toList : List Char) = fenceJson := by decide
  have hf3 : ( "```".toList : List Char) = fence3 := by decide
  constructor
  · rw [hfj, hf3]
    unfold BaseProvider.parseJsonResponse
    rw [stripFences_fenced, jsonParse_serialize]
  · unfold BaseProvider.parseJsonResponse
    rw [stripFences_plain, jsonParse_serialize]

/-! ## C7: parse failure carries a truncated preview -/

/-- C7: whenever the response is still not valid JSON after fence stripping
and trimming, `parseJsonResponse` throws (returns the error branch, never a
value) and the error message embeds the original text truncated to at most
200 characters. -/
theorem claim_C7_parse_failure (s : List Char)
    (h : jsonParse (stripFences s) = none) :
    BaseProvider.parseJsonResponse s =
      Except.error ( "Failed to parse JSON response: ".toList ++ s.take 200 ++ "...".toList) ∧
    (s.take 200).length ≤ 200 := by
  constructor
  · unfold BaseProvider.parseJsonResponse
    rw [h]
  · simp

/-- Witness for C7 on a concrete refusal message. -/
theorem claim_C7_witness :
    BaseProvider.parseJsonResponse ( "Sorry, I cannot read this document.".toList) =
      Except.error ( "Failed to parse JSON response: ".toList ++
        ( "Sorry, I cannot read this document.".toList).take 200 ++ "...".toList) ∧
    (( "Sorry, I cannot read this document.".toList).take 200).length ≤ 200 :=
  claim_C7_parse_failure ( "Sorry, I cannot read this document.".toList) (by rfl)
